import Mathlib

set_option maxHeartbeats 1000000

/-!
Shallow embedding of the Five-in-a-Row backend core
(src/rooms.rs, src/auth.rs, src/ws.rs, src/protocol.rs, src/config.rs).

Conventions of the embedding:
* UUIDs (`uuid::Uuid::new_v4`) are modelled as `Nat` values supplied as
  explicit parameters to the operations that generate them; distinctness of
  freshly drawn UUIDs is a hypothesis where it matters.
* The `DashMap` collections are modelled as association lists where `insert`
  replaces any earlier binding of the same key and `get` is a first-match
  lookup.
* The 15 x 15 `[[u8; 15]; 15]` board is modelled as a total function
  `Nat → Nat → Nat` with cell values 0 (empty), 1 (black), 2 (white); the
  Rust code only ever indexes it after a bounds check.
* Wall-clock instants (`Utc::now`) and freshly generated random secrets are
  explicit parameters.
* SHA-256 hashing of refresh tokens is modelled by an arbitrary function
  `h : String → String` passed to the auth operations.
* `serde_json::Value` payloads of outbound room events are modelled by the
  structured inductive `Event` carrying exactly the fields the Rust code
  serializes; inbound websocket payloads are modelled by a small `Json` type.
-/

namespace FIAR

/-- Board contents: cell value 0 = empty, 1 = black, 2 = white. -/
abbrev Board := Nat → Nat → Nat

/-- `BOARD_SIZE` from src/rooms.rs. -/
def boardSize : Nat := 15

/-- Stone colors (src/rooms.rs `Color`). -/
inductive Color where
  | black
  | white
deriving DecidableEq

/-- `Color::other` from src/rooms.rs. -/
def Color.other : Color → Color
  | .black => .white
  | .white => .black

/-- `Coord` from src/rooms.rs (`row`, `col` are `i32`). -/
structure Coord where
  row : Int
  col : Int
deriving DecidableEq

/-- `Move` from src/rooms.rs. -/
structure Move where
  color : Color
  coord : Coord
deriving DecidableEq

/-- `RoomState` from src/rooms.rs. -/
inductive RoomState where
  | Waiting
  | Playing
deriving DecidableEq

/-- `Seat` from src/rooms.rs. -/
structure Seat where
  username : String
  ready : Bool
deriving DecidableEq

/-- `Seats` from src/rooms.rs. -/
structure Seats where
  black : Option Seat
  white : Option Seat
deriving DecidableEq

/-- `Match` from src/rooms.rs. -/
structure GameMatch where
  matchId : Nat
  turn : Color
  moves : List Move
  board : Board

/-- `Room` from src/rooms.rs. -/
structure Room where
  roomId : Nat
  title : String
  seats : Seats
  spectators : List String
  state : RoomState
  currentMatch : Option GameMatch

/-- `SeatKind` from src/rooms.rs. -/
inductive SeatKind where
  | Black
  | White
  | Spectator
deriving DecidableEq

/-- `SeatInfo` from src/rooms.rs. -/
structure SeatInfo where
  username : String
  ready : Bool
deriving DecidableEq

/-- `SeatsSnapshot` from src/rooms.rs. -/
structure SeatsSnapshot where
  black : Option SeatInfo
  white : Option SeatInfo
deriving DecidableEq

/-- `RoomSnapshot` from src/rooms.rs (the room UUID is modelled as `Nat`). -/
structure RoomSnapshot where
  roomId : Nat
  title : String
  seats : SeatsSnapshot
  spectators : List String
  state : RoomState
deriving DecidableEq

/-- The outbound room events built with `EnvelopeOut::event` in src/rooms.rs,
with the fields the Rust code puts into the JSON payload. -/
inductive Event where
  | matchOver (matchId : Nat) (result : String) (winner : Option Color) (reason : String)
  | matchStart (matchId : Nat) (boardSize : Nat) (turn : Color) (moves : List Move)
  | matchMoved (matchId : Nat) (mv : Move) (turn : Color)
  | roomSnapshot (snap : RoomSnapshot)
deriving DecidableEq

/-- The shape tag of an outbound room event (its `type` string). -/
inductive EventKind where
  | over
  | start
  | moved
  | snap
deriving DecidableEq

/-- Which event constructor an `Event` is. -/
def Event.kind : Event → EventKind
  | .matchOver .. => .over
  | .matchStart .. => .start
  | .matchMoved .. => .moved
  | .roomSnapshot .. => .snap

/-- The `match_move` response payload: `{accepted: false, reason}` or
`{accepted: true, turn, move}` (src/rooms.rs `match_move`). -/
inductive MoveResp where
  | rejected (reason : String)
  | accepted (turn : Color) (mv : Move)
deriving DecidableEq

/-- `RoomService` state from src/rooms.rs: the `rooms` map and the
`user_room` index, as association lists keyed by UUID and username. -/
structure Service where
  rooms : List (Nat × Room)
  userRoom : List (String × Nat)

/-- The empty service (`RoomService::default`). -/
def emptyService : Service := ⟨[], []⟩

/-- `DashMap::get` on the rooms map (first-match association lookup). -/
def lookupRoom (l : List (Nat × Room)) (rid : Nat) : Option Room :=
  (l.find? fun p => p.1 = rid).map Prod.snd

/-- `DashMap::insert` on the rooms map: replace any binding of the key. -/
def insertRoom (l : List (Nat × Room)) (rid : Nat) (room : Room) : List (Nat × Room) :=
  (rid, room) :: l.filter fun p => ¬ p.1 = rid

/-- `DashMap::remove` on the rooms map. -/
def removeRoom (l : List (Nat × Room)) (rid : Nat) : List (Nat × Room) :=
  l.filter fun p => ¬ p.1 = rid

/-- `DashMap::get` on the `user_room` index. -/
def lookupUR (l : List (String × Nat)) (u : String) : Option Nat :=
  (l.find? fun e => e.1 = u).map Prod.snd

/-- `DashMap::insert` on the `user_room` index. -/
def insertUR (l : List (String × Nat)) (u : String) (rid : Nat) : List (String × Nat) :=
  (u, rid) :: l.filter fun e => ¬ e.1 = u

/-- `DashMap::remove` on the `user_room` index. -/
def removeUR (l : List (String × Nat)) (u : String) : List (String × Nat) :=
  l.filter fun e => ¬ e.1 = u

/-- The all-empty board (`[[0u8; BOARD_SIZE]; BOARD_SIZE]`). -/
def emptyBoard : Board := fun _ _ => 0

/-- `Room::snapshot` from src/rooms.rs. -/
def snapshot (room : Room) : RoomSnapshot :=
  { roomId := room.roomId
    title := room.title
    seats :=
      { black := room.seats.black.map fun s => ⟨s.username, s.ready⟩
        white := room.seats.white.map fun s => ⟨s.username, s.ready⟩ }
    spectators := room.spectators
    state := room.state }

/-- The usernames occupying a room, across both seats and the spectator
list (the membership notion of src/rooms.rs). -/
def members (room : Room) : List String :=
  (room.seats.black.map Seat.username).toList ++
    (room.seats.white.map Seat.username).toList ++ room.spectators

/-- Clear a seat when it is held by `u` (the seat-removal steps of
`leave_room` and `take_seat` in src/rooms.rs). -/
def clearSeatIf (s : Option Seat) (u : String) : Option Seat :=
  if s.map Seat.username = some u then none else s

/-- Remove `u` from seats and spectators of a room (the shared prefix of
`leave_room` and `take_seat` in src/rooms.rs). -/
def removeUser (room : Room) (u : String) : Room :=
  { room with
    seats :=
      { black := clearSeatIf room.seats.black u
        white := clearSeatIf room.seats.white u }
    spectators := room.spectators.filter fun w => ¬ w = u }

/-- Reset a seat's ready flag, keeping its occupant. -/
def clearReady (s : Option Seat) : Option Seat :=
  s.map fun t => { t with ready := false }

/-- End-of-match room reset used by `leave_room` and `match_move`
(src/rooms.rs): back to `Waiting`, drop the match, clear both ready flags. -/
def resetRoomAfterMatch (room : Room) : Room :=
  { room with
    state := .Waiting
    currentMatch := none
    seats :=
      { black := clearReady room.seats.black
        white := clearReady room.seats.white } }

/-- Winner determination in `leave_room` (src/rooms.rs lines 195-201):
the sole remaining occupied seat, else none. -/
def disconnectWinner (seats : Seats) : Option Color :=
  if seats.black.isSome ∧ seats.white.isNone then some .black
  else if seats.white.isSome ∧ seats.black.isNone then some .white
  else none

/-- The `result` string of a `match.over` payload (src/rooms.rs). -/
def resultString : Option Color → String
  | some .black => "black_win"
  | some .white => "white_win"
  | none => "draw"

/-- `RoomService::create_room` from src/rooms.rs; the fresh UUID is the
parameter `rid`. -/
def create_room (s : Service) (u : String) (title : String) (rid : Nat) :
    Service × RoomSnapshot :=
  let room : Room :=
    { roomId := rid
      title := if title.trim.isEmpty then "房间" else title.trim
      seats := { black := some ⟨u, false⟩, white := none }
      spectators := []
      state := .Waiting
      currentMatch := none }
  ({ rooms := insertRoom s.rooms rid room
     userRoom := insertUR s.userRoom u rid },
   snapshot room)

/-- `RoomService::join_room` from src/rooms.rs. -/
def join_room (s : Service) (u : String) (rid : Nat) :
    Except String (Service × RoomSnapshot) :=
  match lookupRoom s.rooms rid with
  | none => .error "room_not_found"
  | some room =>
    if room.seats.black.map Seat.username = some u ∨
        room.seats.white.map Seat.username = some u ∨ u ∈ room.spectators then
      .ok ({ s with userRoom := insertUR s.userRoom u rid }, snapshot room)
    else
      let room1 := { room with spectators := room.spectators ++ [u] }
      .ok ({ rooms := insertRoom s.rooms rid room1
             userRoom := insertUR s.userRoom u rid },
           snapshot room1)

/-- `RoomService::leave_room` from src/rooms.rs. Returns the updated
service together with the `Option<(RoomSnapshot, Vec<EnvelopeOut>)>` result;
note that the Rust code removes the `user_room` entry before it looks the
room up, so that removal persists even on the `None` path. -/
def leave_room (s : Service) (u : String) :
    Service × Option (RoomSnapshot × List Event) :=
  match lookupUR s.userRoom u with
  | none => (s, none)
  | some rid =>
    let ur1 := removeUR s.userRoom u
    match lookupRoom s.rooms rid with
    | none => ({ s with userRoom := ur1 }, none)
    | some room =>
      let room1 := removeUser room u
      let roomEvents : Room × List Event :=
        if room1.state = RoomState.Playing ∧ room1.currentMatch.isSome then
          (resetRoomAfterMatch room1,
           match room1.currentMatch with
           | some m =>
             [Event.matchOver m.matchId
               (resultString (disconnectWinner room1.seats))
               (disconnectWinner room1.seats) "disconnect"]
           | none => [])
        else (room1, [])
      let room2 := roomEvents.1
      let snap := snapshot room2
      if room2.seats.black.isNone ∧ room2.seats.white.isNone ∧
          room2.spectators.isEmpty then
        ({ rooms := removeRoom s.rooms rid, userRoom := ur1 },
         some (snap, roomEvents.2))
      else
        ({ rooms := insertRoom s.rooms rid room2, userRoom := ur1 },
         some (snap, roomEvents.2))

/-- `RoomService::take_seat` from src/rooms.rs. -/
def take_seat (s : Service) (u : String) (k : SeatKind) :
    Except String (Service × Nat × RoomSnapshot) :=
  match lookupUR s.userRoom u with
  | none => .error "not_in_room"
  | some rid =>
    match lookupRoom s.rooms rid with
    | none => .error "room_not_found"
    | some room =>
      if room.state = RoomState.Playing then .error "invalid_room_state"
      else
        let room1 := removeUser room u
        match k with
        | .Black =>
          if room1.seats.black.isSome then .error "seat_taken"
          else
            let room2 := { room1 with seats := { room1.seats with black := some ⟨u, false⟩ } }
            .ok ({ s with rooms := insertRoom s.rooms rid room2 }, rid, snapshot room2)
        | .White =>
          if room1.seats.white.isSome then .error "seat_taken"
          else
            let room2 := { room1 with seats := { room1.seats with white := some ⟨u, false⟩ } }
            .ok ({ s with rooms := insertRoom s.rooms rid room2 }, rid, snapshot room2)
        | .Spectator =>
          let room2 := { room1 with spectators := room1.spectators ++ [u] }
          .ok ({ s with rooms := insertRoom s.rooms rid room2 }, rid, snapshot room2)

/-- Flip the ready flag of the seat held by `u` (the update step of
`set_ready` in src/rooms.rs). -/
def updSeat (o : Option Seat) (u : String) (b : Bool) : Option Seat :=
  o.map fun t => if t.username = u then { t with ready := b } else t

/-- Both seat updates of `set_ready` (src/rooms.rs lines 304-315). -/
def readySeats (st : Seats) (u : String) (b : Bool) : Seats :=
  { black := updSeat st.black u b, white := updSeat st.white u b }

/-- Both seats occupied and both ready (the `match.start` trigger of
`set_ready` in src/rooms.rs). -/
def bothReady (st : Seats) : Bool :=
  match st.black, st.white with
  | some b, some w => b.ready && w.ready
  | _, _ => false

/-- The room after a `set_ready` update that triggers `match.start`
(src/rooms.rs lines 323-330): updated seats, `Playing`, a fresh match with
turn Black, no moves and an empty board. -/
def startRoom (room : Room) (u : String) (b : Bool) (mid : Nat) : Room :=
  { room with
    seats := readySeats room.seats u b
    state := .Playing
    currentMatch := some ⟨mid, .black, [], emptyBoard⟩ }

/-- The room after a `set_ready` update that does not trigger a match. -/
def seatsUpdatedRoom (room : Room) (u : String) (b : Bool) : Room :=
  { room with seats := readySeats room.seats u b }

/-- `RoomService::set_ready` from src/rooms.rs; the fresh match UUID is the
parameter `mid`. -/
def set_ready (s : Service) (u : String) (ready : Bool) (mid : Nat) :
    Except String (Service × Nat × RoomSnapshot × Option Event) :=
  match lookupUR s.userRoom u with
  | none => .error "not_in_room"
  | some rid =>
    match lookupRoom s.rooms rid with
    | none => .error "room_not_found"
    | some room =>
      if room.state = RoomState.Playing then .error "invalid_room_state"
      else
        let isSeat := (room.seats.black.any fun t => t.username = u) ||
          (room.seats.white.any fun t => t.username = u)
        if isSeat = false then .error "forbidden"
        else
          let roomEvt : Room × Option Event :=
            if bothReady (readySeats room.seats u ready) then
              (startRoom room u ready mid,
               some (Event.matchStart mid boardSize .black []))
            else (seatsUpdatedRoom room u ready, none)
          .ok ({ s with rooms := insertRoom s.rooms rid roomEvt.1 },
               rid, snapshot roomEvt.1, roomEvt.2)

/-- The username seated at the given color (the turn-holder lookup of
`match_move` in src/rooms.rs lines 363-366). -/
def seatOf (room : Room) : Color → Option String
  | .black => room.seats.black.map Seat.username
  | .white => room.seats.white.map Seat.username

/-- Cell value written for a color (`Color::Black => 1, Color::White => 2`). -/
def colorVal : Color → Nat
  | .black => 1
  | .white => 2

/-- The out-of-range test of `match_move` (src/rooms.rs lines 379-383);
`coord.row as usize` on a non-negative `i32` is `Int.toNat`. -/
abbrev outOfRange (coord : Coord) : Prop :=
  coord.row < 0 ∨ coord.col < 0 ∨
    boardSize ≤ coord.row.toNat ∨ boardSize ≤ coord.col.toNat

/-- Write a stone onto the board (`m.board[r][c] = v`). -/
def placeStone (board : Board) (r c : Nat) (v : Nat) : Board :=
  fun r' c' => if r' = r ∧ c' = c then v else board r' c'

/-- One probed cell of the `is_win` scan (src/rooms.rs lines 525-531 and
536-543): the bounds checks and the color comparison at
`(r + dr*step, c + dc*step)`. -/
def cellMatch (board : Board) (r c : Nat) (dr dc : Int) (v : Nat) (step : Nat) : Bool :=
  let rr := (r : Int) + dr * (step : Int)
  let cc := (c : Int) + dc * (step : Int)
  if rr < 0 ∨ cc < 0 ∨ boardSize ≤ rr.toNat ∨ boardSize ≤ cc.toNat then false
  else decide (board rr.toNat cc.toNat = v)

/-- The counting loop of `is_win`: starting at `step`, probe up to `fuel`
further cells in direction `(dr, dc)`, stopping at the first failure. -/
def countFrom (board : Board) (r c : Nat) (dr dc : Int) (v : Nat) :
    Nat → Nat → Nat
  | _, 0 => 0
  | step, fuel + 1 =>
    if cellMatch board r c dr dc v step then
      1 + countFrom board r c dr dc v (step + 1) fuel
    else 0

/-- The four scan directions of `is_win` (src/rooms.rs line 521). -/
def dirs : List (Int × Int) := [(0, 1), (1, 0), (1, 1), (1, -1)]

/-- `is_win` from src/rooms.rs: for each direction, 1 for the placed stone
plus up to 4 matching steps forward and up to 4 backward; win iff some
direction reaches a count of at least 5. -/
def is_win (board : Board) (r c : Nat) (v : Nat) : Bool :=
  dirs.any fun d =>
    decide (5 ≤ 1 + countFrom board r c d.1 d.2 v 1 4 +
      countFrom board r c (-d.1) (-d.2) v 1 4)

/-- The match updated by an accepted move (board write and history push,
src/rooms.rs lines 401-408). -/
def pushMove (m : GameMatch) (coord : Coord) : GameMatch :=
  { m with
    board := placeStone m.board coord.row.toNat coord.col.toNat (colorVal m.turn)
    moves := m.moves ++ [⟨m.turn, coord⟩] }

/-- The continuing room after an accepted, non-terminal move: same match
with the updated board and history and the turn flipped. -/
def continueRoom (room : Room) (m : GameMatch) (coord : Coord) : Room :=
  { room with currentMatch := some { pushMove m coord with turn := m.turn.other } }

/-- The accepted-move tail of `match_move` (src/rooms.rs lines 401-468):
write the stone, push the move, emit `match.moved`, evaluate termination
(win check on the just-placed stone, then board-full draw), and either
reset the room with `match.over` plus a refreshed snapshot or flip the
turn. -/
def acceptedMove (s : Service) (rid : Nat) (room : Room) (m : GameMatch)
    (coord : Coord) : Service × Nat × MoveResp × List Event :=
  let r := coord.row.toNat
  let c := coord.col.toNat
  let v := colorVal m.turn
  let m1 := pushMove m coord
  let movedEvt := Event.matchMoved m.matchId ⟨m.turn, coord⟩ m.turn.other
  let overEvt : Option Event :=
    if is_win m1.board r c v then
      some (Event.matchOver m.matchId (resultString (some m.turn))
        (some m.turn) "five_in_a_row")
    else if boardSize * boardSize ≤ m1.moves.length then
      some (Event.matchOver m.matchId "draw" none "board_full")
    else none
  match overEvt with
  | some evt =>
    let room2 := resetRoomAfterMatch room
    ({ s with rooms := insertRoom s.rooms rid room2 }, rid,
      MoveResp.accepted m.turn.other ⟨m.turn, coord⟩,
      [movedEvt, evt, Event.roomSnapshot (snapshot room2)])
  | none =>
    ({ s with rooms := insertRoom s.rooms rid (continueRoom room m coord) }, rid,
      MoveResp.accepted m.turn.other ⟨m.turn, coord⟩, [movedEvt])

/-- `RoomService::match_move` from src/rooms.rs. -/
def match_move (s : Service) (u : String) (coord : Coord) :
    Except String (Service × Nat × MoveResp × List Event) :=
  match lookupUR s.userRoom u with
  | none => .error "not_in_room"
  | some rid =>
    match lookupRoom s.rooms rid with
    | none => .error "room_not_found"
    | some room =>
      if ¬ room.state = RoomState.Playing then .error "invalid_room_state"
      else
        match room.currentMatch with
        | none => .error "match_not_found"
        | some m =>
          if ¬ seatOf room m.turn = some u then
            .ok (s, rid, .rejected "not_your_turn", [])
          else if outOfRange coord then
            .ok (s, rid, .rejected "out_of_range", [])
          else if ¬ m.board coord.row.toNat coord.col.toNat = 0 then
            .ok (s, rid, .rejected "overlap", [])
          else
            .ok (acceptedMove s rid room m coord)

/-! ### Auth service (src/auth.rs, src/config.rs) -/

/-- The error kinds of src/error.rs used by the auth operations. -/
inductive ApiError where
  | BadRequest
  | Unauthorized
  | TokenExpired
  | Internal
deriving DecidableEq

/-- The auth-relevant configuration fields (src/config.rs), in seconds. -/
structure Cfg where
  accessTtl : Int
  refreshTtl : Int
  rotateThreshold : Int
deriving DecidableEq

/-- `i64::clamp(lo, hi)` as used on the rotate threshold. -/
def clampInt (x lo hi : Int) : Int :=
  if x < lo then lo else if hi < x then hi else x

/-- A `refresh_sessions` row (src/auth.rs, schema in src/db.rs);
timestamps are seconds, UUIDs are `Nat`. -/
structure Session where
  id : Nat
  userId : Nat
  tokenHash : String
  expiresAt : Int
  revokedAt : Option Int
  createdAt : Int
deriving DecidableEq

/-- The persistent state the auth operations touch: the `users` table
(id, username) and the `refresh_sessions` table. -/
structure AuthDb where
  users : List (Nat × String)
  sessions : List Session
deriving DecidableEq

/-- The JWT claims minted by `mint_access_token` (src/auth.rs): the signed
token is modelled by its claim set. -/
structure AccessClaims where
  sub : String
  uid : Nat
  iat : Int
  exp : Int
deriving DecidableEq

/-- `Tokens` from src/auth.rs. -/
structure Tokens where
  accessToken : AccessClaims
  accessExpiresIn : Int
  refreshToken : String
  refreshExpiresIn : Int
deriving DecidableEq

/-- `mint_access_token` from src/auth.rs, with the current instant `now`. -/
def mint_access_token (cfg : Cfg) (username : String) (uid : Nat) (now : Int) :
    AccessClaims :=
  { sub := username, uid := uid, iat := now, exp := now + cfg.accessTtl }

/-- `refresh` from src/auth.rs. `h` models SHA-256 token hashing, `now` the
current instant, `newTok` the freshly generated refresh secret and `newSid`
the freshly drawn session UUID (used only when rotation happens). -/
def refresh (h : String → String) (db : AuthDb) (cfg : Cfg) (now : Int)
    (tok newTok : String) (newSid : Nat) : Except ApiError (AuthDb × Tokens) :=
  let tokenHash := h tok
  match db.sessions.find? fun t => t.tokenHash = tokenHash with
  | none => .error .Unauthorized
  | some sess =>
    match (db.users.find? fun p => p.1 = sess.userId).map Prod.snd with
    | none => .error .Unauthorized
    | some username =>
      if sess.revokedAt.isSome then .error .Unauthorized
      else if sess.expiresAt < now then .error .TokenExpired
      else
        let remaining := sess.expiresAt - now
        let rotateThreshold := clampInt cfg.rotateThreshold 0 cfg.refreshTtl
        let shouldRotate := remaining ≤ rotateThreshold
        let newHash := h newTok
        let newExpiresAt := now + cfg.refreshTtl
        let accessToken := mint_access_token cfg username sess.userId now
        if ¬ shouldRotate then
          .ok (db,
            { accessToken := accessToken
              accessExpiresIn := cfg.accessTtl
              refreshToken := tok
              refreshExpiresIn := max remaining 0 })
        else
          .ok ({ db with
                  sessions := db.sessions.map fun t =>
                    if t.userId = sess.userId then
                      { t with
                        id := newSid
                        tokenHash := newHash
                        expiresAt := newExpiresAt
                        revokedAt := none
                        createdAt := now }
                    else t },
            { accessToken := accessToken
              accessExpiresIn := cfg.accessTtl
              refreshToken := newTok
              refreshExpiresIn := cfg.refreshTtl })

/-- `logout` from src/auth.rs: set `revoked_at = now` on every session row
whose stored hash matches the presented token; always succeeds. -/
def logout (h : String → String) (db : AuthDb) (now : Int) (tok : String) :
    Except ApiError AuthDb :=
  .ok { db with
        sessions := db.sessions.map fun t =>
          if t.tokenHash = h tok then { t with revokedAt := some now } else t }

/-! ### Envelope protocol and socket dispatch (src/protocol.rs, src/ws.rs) -/

/-- A minimal JSON value model for inbound payloads (`serde_json::Value`). -/
inductive Json where
  | null
  | bool (b : Bool)
  | num (n : Int)
  | str (s : String)
  | arr (xs : List Json)
  | obj (fields : List (String × Json))

/-- `serde_json::Value::get` on an object key: `None` on non-objects. -/
def Json.get : Json → String → Option Json
  | .obj fields, k => (fields.find? fun f => f.1 = k).map Prod.snd
  | _, _ => none

/-- `serde_json::Value::as_str`. -/
def Json.asStr : Json → Option String
  | .str s => some s
  | _ => none

/-- `serde_json::Value::as_bool`. -/
def Json.asBool : Json → Option Bool
  | .bool b => some b
  | _ => none

/-- `EnvelopeIn` from src/protocol.rs. -/
structure EnvelopeIn where
  v : Nat
  type : String
  reqId : Option String
  ts : Option Int
  payload : Json

/-- `WsError` from src/protocol.rs. -/
structure WsError where
  code : String
  message : String
  details : Option Json

/-- `EnvelopeOut` from src/protocol.rs. -/
structure EnvelopeOut where
  v : Nat
  type : String
  reqId : Option String
  ok : Option Bool
  error : Option WsError
  payload : Json

/-- `EnvelopeOut::event` from src/protocol.rs. -/
def EnvelopeOut.event (ty : String) (payload : Json) : EnvelopeOut :=
  { v := 1, type := ty, reqId := none, ok := none, error := none, payload := payload }

/-- `EnvelopeOut::resp_ok` from src/protocol.rs. -/
def EnvelopeOut.resp_ok (req : EnvelopeIn) (payload : Json) : EnvelopeOut :=
  { v := 1, type := req.type ++ ".resp", reqId := req.reqId
    ok := some true, error := none, payload := payload }

/-- `EnvelopeOut::resp_err` from src/protocol.rs. -/
def EnvelopeOut.resp_err (req : EnvelopeIn) (code message : String) : EnvelopeOut :=
  { v := 1, type := req.type ++ ".resp", reqId := req.reqId
    ok := some false, error := some ⟨code, message, none⟩, payload := .obj [] }

/-- The six handlers of `dispatch_ws_req` (src/ws.rs lines 249-259). -/
inductive WsHandlerKind where
  | roomCreate
  | roomJoin
  | roomLeave
  | roomTakeSeat
  | roomReady
  | matchMove
deriving DecidableEq

/-- The recognized inbound message types. -/
def knownTypes : List String :=
  ["room.create", "room.join", "room.leave", "room.takeSeat", "room.ready", "match.move"]

/-- The version gate of `handle_socket` (src/ws.rs lines 405-413) followed
by the type dispatch of `dispatch_ws_req` (src/ws.rs lines 249-259), for one
parsed inbound envelope. Returns which handler is dispatched to (if any)
together with the error responses sent directly back to the sender. -/
def processEnvelope (req : EnvelopeIn) : Option WsHandlerKind × List EnvelopeOut :=
  if ¬ req.v = 1 then
    (none,
     if req.reqId.isSome then [EnvelopeOut.resp_err req "bad_request" "协议版本不支持"]
     else [])
  else
    if req.type = "room.create" then (some .roomCreate, [])
    else if req.type = "room.join" then (some .roomJoin, [])
    else if req.type = "room.leave" then (some .roomLeave, [])
    else if req.type = "room.takeSeat" then (some .roomTakeSeat, [])
    else if req.type = "room.ready" then (some .roomReady, [])
    else if req.type = "match.move" then (some .matchMove, [])
    else (none, [EnvelopeOut.resp_err req "bad_request" "未知消息类型"])

/-- The seat-field extraction of `handle_room_take_seat` (src/ws.rs lines
169-186): a missing or non-string `seat` defaults to `"spectator"`; only an
unrecognized seat string is a `bad_request`. -/
def seatFromPayload (payload : Json) : Except String SeatKind :=
  let seatStr := ((payload.get "seat").bind Json.asStr).getD "spectator"
  if seatStr = "black" then .ok .Black
  else if seatStr = "white" then .ok .White
  else if seatStr = "spectator" then .ok .Spectator
  else .error "bad_request"

/-- The ready-field extraction of `handle_room_ready` (src/ws.rs line 203):
a missing or non-boolean `ready` defaults to `false`. -/
def readyFromPayload (payload : Json) : Bool :=
  ((payload.get "ready").bind Json.asBool).getD false

/-! ### Specification-side definitions

These definitions follow the wording of the specification (not the code)
and are used to compare code behavior against it. -/

/-- Following the spec: the cell at offset `i` along direction `d` from the
placed cell `(r, c)` is on the board and holds a stone of value `v`.
Offset 0 is the placed cell itself. -/
def cellOk (board : Board) (r c : Nat) (d : Int × Int) (v : Nat) (i : Int) : Prop :=
  0 ≤ (r : Int) + d.1 * i ∧ (r : Int) + d.1 * i < (boardSize : Int) ∧
    0 ≤ (c : Int) + d.2 * i ∧ (c : Int) + d.2 * i < (boardSize : Int) ∧
    board ((r : Int) + d.1 * i).toNat ((c : Int) + d.2 * i).toNat = v

/-- Following the spec: in at least one of the four directions, the maximal
contiguous run of same-colored stones passing through the placed cell has
length at least 5, i.e. some contiguous segment of `a + 1 + b ≥ 5` cells
(offsets `-a` through `b`, containing offset 0) is entirely `v`-colored. -/
def SpecWin (board : Board) (r c : Nat) (v : Nat) : Prop :=
  ∃ d ∈ dirs, ∃ a b : Nat, 5 ≤ a + 1 + b ∧
    ∀ i : Int, -(a : Int) ≤ i → i ≤ (b : Int) → cellOk board r c d v i

/-! ### Room-service invariant and reachability -/

/-- The membership/index coherence invariant of the room service: room keys
are unique, every member of a room is indexed to that room, and every index
entry points to an existing room containing the user. -/
def Inv (s : Service) : Prop :=
  (s.rooms.map Prod.fst).Nodup ∧
    (∀ p ∈ s.rooms, ∀ u ∈ members p.2, lookupUR s.userRoom u = some p.1) ∧
    (∀ e ∈ s.userRoom, ∃ p ∈ s.rooms, p.1 = e.2 ∧ e.1 ∈ members p.2)

/-- The property claimed of the service: each username occupies at most one
room (across seats and spectator lists), the index maps every such username
to exactly that room, and the index maps no username that is in no room. -/
def ClaimProp (s : Service) : Prop :=
  (∀ p ∈ s.rooms, ∀ q ∈ s.rooms, ∀ u ∈ members p.2, u ∈ members q.2 → p.1 = q.1) ∧
    (∀ p ∈ s.rooms, ∀ u ∈ members p.2, lookupUR s.userRoom u = some p.1) ∧
    (∀ e ∈ s.userRoom, ∃ p ∈ s.rooms, p.1 = e.2 ∧ e.1 ∈ members p.2)

/-- States reachable by arbitrary sequences of the public room-service
operations, exactly as the claim quantifies them. Freshness of the UUIDs
drawn by `create_room` is retained (collisions of `Uuid::new_v4` are
assumed impossible); no other calling discipline is imposed. -/
inductive ReachAny : Service → Prop where
  | init : ReachAny emptyService
  | create (s : Service) (u title : String) (rid : Nat) : ReachAny s →
      (s.rooms.find? fun p => p.1 = rid) = none →
      ReachAny (create_room s u title rid).1
  | join (s s1 : Service) (u : String) (rid : Nat) (snap : RoomSnapshot) :
      ReachAny s → join_room s u rid = .ok (s1, snap) → ReachAny s1
  | leave (s : Service) (u : String) : ReachAny s → ReachAny (leave_room s u).1
  | seat (s : Service) (u : String) (k : SeatKind)
      (out : Service × Nat × RoomSnapshot) : ReachAny s →
      take_seat s u k = .ok out → ReachAny out.1
  | ready (s : Service) (u : String) (b : Bool) (mid : Nat)
      (out : Service × Nat × RoomSnapshot × Option Event) : ReachAny s →
      set_ready s u b mid = .ok out → ReachAny out.1
  | move (s : Service) (u : String) (coord : Coord)
      (out : Service × Nat × MoveResp × List Event) : ReachAny s →
      match_move s u coord = .ok out → ReachAny out.1

/-- States reachable under the calling discipline the socket layer enforces
(src/ws.rs `handle_room_create` and `handle_room_join` leave any previous
room first): `create_room` is only invoked for users in no room, and
`join_room` only for users in no room or already in the target room. -/
inductive Reach : Service → Prop where
  | init : Reach emptyService
  | create (s : Service) (u title : String) (rid : Nat) : Reach s →
      (s.rooms.find? fun p => p.1 = rid) = none →
      lookupUR s.userRoom u = none →
      Reach (create_room s u title rid).1
  | join (s s1 : Service) (u : String) (rid : Nat) (snap : RoomSnapshot) :
      Reach s → (∀ rid', lookupUR s.userRoom u = some rid' → rid' = rid) →
      join_room s u rid = .ok (s1, snap) → Reach s1
  | leave (s : Service) (u : String) : Reach s → Reach (leave_room s u).1
  | seat (s : Service) (u : String) (k : SeatKind)
      (out : Service × Nat × RoomSnapshot) : Reach s →
      take_seat s u k = .ok out → Reach out.1
  | ready (s : Service) (u : String) (b : Bool) (mid : Nat)
      (out : Service × Nat × RoomSnapshot × Option Event) : Reach s →
      set_ready s u b mid = .ok out → Reach out.1
  | move (s : Service) (u : String) (coord : Coord)
      (out : Service × Nat × MoveResp × List Event) : Reach s →
      match_move s u coord = .ok out → Reach out.1

/-! ### Helper lemmas -/

/-- After `logout`, every session row whose stored hash matches the
presented token carries the revocation timestamp `now`. -/
theorem logout_marks_revoked (h : String → String) (db : AuthDb) (now : Int)
    (tok : String) {db1 : AuthDb} (hlo : logout h db now tok = .ok db1) :
    ∀ t ∈ db1.sessions, t.tokenHash = h tok → t.revokedAt = some now := by
  cases hlo
  intro t ht htok
  rcases List.mem_map.mp ht with ⟨a, _, rfl⟩
  by_cases ha : a.tokenHash = h tok
  · simp [ha]
  · simp [ha] at htok ⊢

/-- Looking up a room right after inserting it yields the inserted room. -/
theorem lookupRoom_insert_self (l : List (Nat × Room)) (rid : Nat) (room : Room) :
    lookupRoom (insertRoom l rid room) rid = some room := by
  simp [lookupRoom, insertRoom, List.find?]

/-- Under the acceptance conditions, `match_move` runs its accepted tail. -/
theorem match_move_accepted (s : Service) (u : String) (coord : Coord)
    (rid : Nat) (room : Room) (m : GameMatch)
    (H1 : lookupUR s.userRoom u = some rid)
    (H2 : lookupRoom s.rooms rid = some room)
    (H3 : room.state = .Playing)
    (H4 : room.currentMatch = some m)
    (hseat : seatOf room m.turn = some u)
    (hin : ¬ outOfRange coord)
    (hcell : m.board coord.row.toNat coord.col.toNat = 0) :
    match_move s u coord = .ok (acceptedMove s rid room m coord) := by
  simp [match_move, H1, H2, H3, H4, hseat, hin, hcell]

/-- The accepted tail on a winning move. -/
theorem acceptedMove_win (s : Service) (rid : Nat) (room : Room) (m : GameMatch)
    (coord : Coord)
    (hw : is_win (pushMove m coord).board coord.row.toNat coord.col.toNat
      (colorVal m.turn) = true) :
    acceptedMove s rid room m coord =
      ({ s with rooms := insertRoom s.rooms rid (resetRoomAfterMatch room) }, rid,
        MoveResp.accepted m.turn.other ⟨m.turn, coord⟩,
        [Event.matchMoved m.matchId ⟨m.turn, coord⟩ m.turn.other,
         Event.matchOver m.matchId (resultString (some m.turn)) (some m.turn)
           "five_in_a_row",
         Event.roomSnapshot (snapshot (resetRoomAfterMatch room))]) := by
  simp only [pushMove] at hw
  simp [acceptedMove, pushMove, hw]

/-- The accepted tail on a board-filling non-winning move. -/
theorem acceptedMove_draw (s : Service) (rid : Nat) (room : Room) (m : GameMatch)
    (coord : Coord)
    (hw : is_win (pushMove m coord).board coord.row.toNat coord.col.toNat
      (colorVal m.turn) = false)
    (hlen : boardSize * boardSize ≤ (pushMove m coord).moves.length) :
    acceptedMove s rid room m coord =
      ({ s with rooms := insertRoom s.rooms rid (resetRoomAfterMatch room) }, rid,
        MoveResp.accepted m.turn.other ⟨m.turn, coord⟩,
        [Event.matchMoved m.matchId ⟨m.turn, coord⟩ m.turn.other,
         Event.matchOver m.matchId "draw" none "board_full",
         Event.roomSnapshot (snapshot (resetRoomAfterMatch room))]) := by
  simp only [pushMove] at hw
  simp [pushMove] at hlen
  simp [acceptedMove, pushMove, hw, hlen]

/-- The accepted tail on a non-terminal move. -/
theorem acceptedMove_continue (s : Service) (rid : Nat) (room : Room)
    (m : GameMatch) (coord : Coord)
    (hw : is_win (pushMove m coord).board coord.row.toNat coord.col.toNat
      (colorVal m.turn) = false)
    (hlen : ¬ boardSize * boardSize ≤ (pushMove m coord).moves.length) :
    acceptedMove s rid room m coord =
      ({ s with rooms := insertRoom s.rooms rid (continueRoom room m coord) }, rid,
        MoveResp.accepted m.turn.other ⟨m.turn, coord⟩,
        [Event.matchMoved m.matchId ⟨m.turn, coord⟩ m.turn.other]) := by
  simp only [pushMove] at hw
  simp [pushMove] at hlen
  simp [acceptedMove, pushMove, hw, Nat.not_le.mpr hlen]

/-- A probed cell passes the scan test iff it satisfies the spec-side cell
condition at the corresponding positive offset. -/
theorem cellMatch_iff (board : Board) (r c : Nat) (dr dc : Int) (v : Nat)
    (step : Nat) :
    cellMatch board r c dr dc v step = true ↔
      cellOk board r c (dr, dc) v (step : Int) := by
  simp only [cellMatch, cellOk, boardSize]
  by_cases hb : (r : Int) + dr * (step : Int) < 0 ∨ (c : Int) + dc * (step : Int) < 0 ∨
      15 ≤ ((r : Int) + dr * (step : Int)).toNat ∨
      15 ≤ ((c : Int) + dc * (step : Int)).toNat
  · simp only [if_pos hb]
    constructor
    · intro hfalse
      cases hfalse
    · rintro ⟨h1, h2, h3, h4, _⟩
      exfalso
      omega
  · simp only [if_neg hb, decide_eq_true_eq]
    push_neg at hb
    obtain ⟨h1, h2, h3, h4⟩ := hb
    constructor
    · intro hbd
      refine ⟨by omega, by omega, by omega, by omega, hbd⟩
    · intro hok
      exact hok.2.2.2.2

/-- Soundness of the counting loop: every step it counted passes the test. -/
theorem countFrom_sound (board : Board) (r c : Nat) (dr dc : Int) (v : Nat) :
    ∀ (fuel step j : Nat), j < countFrom board r c dr dc v step fuel →
      cellMatch board r c dr dc v (step + j) = true := by
  intro fuel
  induction fuel with
  | zero =>
    intro step j h
    simp [countFrom] at h
  | succ n ih =>
    intro step j h
    by_cases hc : cellMatch board r c dr dc v step = true
    · rw [countFrom, if_pos hc] at h
      cases j with
      | zero => simpa using hc
      | succ j' =>
        have hrec := ih (step + 1) j' (by omega)
        have heq : step + (j' + 1) = step + 1 + j' := by omega
        rw [heq]
        exact hrec
    · rw [countFrom, if_neg hc] at h
      omega

/-- Completeness of the counting loop: a run of `n` passing steps makes the
loop count at least `min n fuel`. -/
theorem countFrom_complete (board : Board) (r c : Nat) (dr dc : Int) (v : Nat) :
    ∀ (fuel step n : Nat),
      (∀ j, j < n → cellMatch board r c dr dc v (step + j) = true) →
      min n fuel ≤ countFrom board r c dr dc v step fuel := by
  intro fuel
  induction fuel with
  | zero =>
    intro step n h
    simp
  | succ fl ih =>
    intro step n h
    cases n with
    | zero => simp [countFrom]
    | succ n' =>
      have h0 : cellMatch board r c dr dc v step = true := by
        simpa using h 0 (by omega)
      rw [countFrom, if_pos h0]
      have hrec := ih (step + 1) n' fun j hj => by
        have hx := h (j + 1) (by omega)
        have heq : step + (j + 1) = step + 1 + j := by omega
        rwa [heq] at hx
      omega

/-- Mirror of the spec-side cell condition under direction negation. -/
theorem cellOk_neg (board : Board) (r c : Nat) (d : Int × Int) (v : Nat)
    (i : Int) :
    cellOk board r c (-d.1, -d.2) v i ↔ cellOk board r c d v (-i) := by
  simp only [cellOk]
  have h1 : (r : Int) + -d.1 * i = (r : Int) + d.1 * (-i) := by ring
  have h2 : (c : Int) + -d.2 * i = (c : Int) + d.2 * (-i) := by ring
  rw [h1, h2]

/-- The win scan of src/rooms.rs is equivalent to the spec condition: some
direction carries a contiguous same-colored run of length at least 5
through the placed cell. The hypotheses say that the scan is invoked on the
placed cell, which is on the board and already holds the stone `v` (the
caller of `is_win` guarantees this). -/
theorem is_win_iff_specWin (board : Board) (r c v : Nat)
    (hr : r < boardSize) (hc : c < boardSize) (hv : board r c = v) :
    is_win board r c v = true ↔ SpecWin board r c v := by
  rw [is_win, SpecWin, List.any_eq_true]
  constructor
  · rintro ⟨d, hd, hcnt⟩
    rw [decide_eq_true_eq] at hcnt
    refine ⟨d, hd, countFrom board r c (-d.1) (-d.2) v 1 4,
      countFrom board r c d.1 d.2 v 1 4, by omega, ?_⟩
    intro i hge hle
    rcases lt_trichotomy i 0 with hneg | hzero | hpos
    · have hj : ((-i).toNat - 1) < countFrom board r c (-d.1) (-d.2) v 1 4 := by
        omega
      have hcm := countFrom_sound board r c (-d.1) (-d.2) v 4 1 _ hj
      rw [cellMatch_iff] at hcm
      rw [cellOk_neg] at hcm
      have heq : -((1 + ((-i).toNat - 1) : Nat) : Int) = i := by omega
      rwa [heq] at hcm
    · subst hzero
      refine ⟨by omega, ?_, by omega, ?_, ?_⟩
      · simp only [mul_zero, add_zero]
        omega
      · simp only [mul_zero, add_zero]
        omega
      · have hrr : ((r : Int) + d.1 * 0).toNat = r := by omega
        have hcc : ((c : Int) + d.2 * 0).toNat = c := by omega
        rw [hrr, hcc]
        exact hv
    · have hj : (i.toNat - 1) < countFrom board r c d.1 d.2 v 1 4 := by
        omega
      have hcm := countFrom_sound board r c d.1 d.2 v 4 1 _ hj
      rw [cellMatch_iff] at hcm
      have heq : ((1 + (i.toNat - 1) : Nat) : Int) = i := by omega
      rwa [heq] at hcm
  · rintro ⟨d, hd, a, b, hlen, hall⟩
    refine ⟨d, hd, ?_⟩
    rw [decide_eq_true_eq]
    have hfwd : min b 4 ≤ countFrom board r c d.1 d.2 v 1 4 := by
      refine countFrom_complete board r c d.1 d.2 v 4 1 b fun j hj => ?_
      rw [cellMatch_iff]
      have := hall ((1 + j : Nat) : Int) (by omega) (by omega)
      exact this
    have hbwd : min a 4 ≤ countFrom board r c (-d.1) (-d.2) v 1 4 := by
      refine countFrom_complete board r c (-d.1) (-d.2) v 4 1 a fun j hj => ?_
      rw [cellMatch_iff, cellOk_neg]
      have := hall (-((1 + j : Nat) : Int)) (by omega) (by omega)
      exact this
    omega

/-! Helper lemmas for the room-service membership invariant. -/

/-- Usernames of a cleared seat. -/
theorem mem_clearSeatIf (o : Option Seat) (u w : String) :
    w ∈ ((clearSeatIf o u).map Seat.username).toList ↔
      w ∈ (o.map Seat.username).toList ∧ ¬ w = u := by
  cases o with
  | none => simp [clearSeatIf]
  | some t =>
    by_cases ht : t.username = u
    · have hcl : clearSeatIf (some t) u = none := by
        simp [clearSeatIf, ht]
      rw [hcl]
      constructor
      · intro hw
        simp at hw
      · rintro ⟨hw, hwu⟩
        exfalso
        simp at hw
        exact hwu (hw.trans ht)
    · have hcl : clearSeatIf (some t) u = some t := by
        simp [clearSeatIf, ht]
      rw [hcl]
      constructor
      · intro hw
        simp at hw
        subst hw
        exact ⟨by simp, ht⟩
      · rintro ⟨hw, -⟩
        exact hw

/-- Membership after removing a user from a room. -/
theorem mem_members_removeUser (room : Room) (u w : String) :
    w ∈ members (removeUser room u) ↔ w ∈ members room ∧ ¬ w = u := by
  simp only [members, removeUser, List.mem_append, mem_clearSeatIf,
    List.mem_filter, decide_eq_true_eq]
  tauto

/-- Ready-flag updates keep seat occupants. -/
theorem updSeat_usernames (o : Option Seat) (u : String) (b : Bool) :
    (updSeat o u b).map Seat.username = o.map Seat.username := by
  cases o with
  | none => rfl
  | some t =>
    by_cases ht : t.username = u
    · simp [updSeat, ht]
    · simp [updSeat, ht]

/-- Clearing ready flags keeps seat occupants. -/
theorem clearReady_usernames (o : Option Seat) :
    (clearReady o).map Seat.username = o.map Seat.username := by
  cases o <;> rfl

/-- The end-of-match reset keeps the room members. -/
theorem members_resetRoomAfterMatch (room : Room) :
    members (resetRoomAfterMatch room) = members room := by
  simp [members, resetRoomAfterMatch, clearReady_usernames]

/-- The `match.start` transition keeps the room members. -/
theorem members_startRoom (room : Room) (u : String) (b : Bool) (mid : Nat) :
    members (startRoom room u b mid) = members room := by
  simp [members, startRoom, readySeats, updSeat_usernames]

/-- A ready-flag update keeps the room members. -/
theorem members_seatsUpdatedRoom (room : Room) (u : String) (b : Bool) :
    members (seatsUpdatedRoom room u b) = members room := by
  simp [members, seatsUpdatedRoom, readySeats, updSeat_usernames]

/-- A non-terminal move keeps the room members. -/
theorem members_continueRoom (room : Room) (m : GameMatch) (coord : Coord) :
    members (continueRoom room m coord) = members room := rfl

/-- The membership test of `join_room` agrees with `members`. -/
theorem members_iff (room : Room) (u : String) :
    u ∈ members room ↔
      (room.seats.black.map Seat.username = some u ∨
        room.seats.white.map Seat.username = some u ∨ u ∈ room.spectators) := by
  simp only [members, List.mem_append, Option.mem_toList, Option.mem_def]
  constructor
  · rintro ((h | h) | h)
    · exact Or.inl h
    · exact Or.inr (Or.inl h)
    · exact Or.inr (Or.inr h)
  · rintro (h | h | h)
    · exact Or.inl (Or.inl h)
    · exact Or.inl (Or.inr h)
    · exact Or.inr h

/-- The emptiness test of `leave_room` agrees with `members`. -/
theorem members_nil_iff (room : Room) :
    (room.seats.black.isNone ∧ room.seats.white.isNone ∧
      room.spectators.isEmpty) ↔ members room = [] := by
  cases hb : room.seats.black <;> cases hw : room.seats.white <;>
    simp [members, hb, hw, List.isEmpty_iff]

/-- First-match association lookup ignores entries filtered by another key. -/
theorem find?_fst_filter_ne {α β : Type} [DecidableEq α] (l : List (α × β))
    (u w : α) (hw : ¬ w = u) :
    (l.filter fun e => ¬ e.1 = u).find? (fun e => e.1 = w) =
      l.find? (fun e => e.1 = w) := by
  induction l with
  | nil => rfl
  | cons e t ih =>
    by_cases heu : e.1 = u
    · have hew : ¬ e.1 = w := fun h => hw (h.symm.trans heu)
      have hfil : (e :: t).filter (fun x => ¬ x.1 = u) =
          t.filter (fun x => ¬ x.1 = u) := by
        simp [List.filter_cons, heu]
      rw [hfil, ih, List.find?_cons_of_neg _ (by simpa using hew)]
    · have hfil : (e :: t).filter (fun x => ¬ x.1 = u) =
          e :: t.filter (fun x => ¬ x.1 = u) := by
        simp [List.filter_cons, heu]
      rw [hfil]
      by_cases hew : e.1 = w
      · rw [List.find?_cons_of_pos _ (by simpa using hew),
          List.find?_cons_of_pos _ (by simpa using hew)]
      · rw [List.find?_cons_of_neg _ (by simpa using hew),
          List.find?_cons_of_neg _ (by simpa using hew), ih]

/-- Lookup of the freshly inserted index entry. -/
theorem lookupUR_insert_self (l : List (String × Nat)) (u : String) (rid : Nat) :
    lookupUR (insertUR l u rid) u = some rid := by
  simp [lookupUR, insertUR, List.find?]

/-- Index insertion for one user does not affect lookups of another. -/
theorem lookupUR_insert_ne (l : List (String × Nat)) (u : String) (rid : Nat)
    (w : String) (hw : ¬ w = u) :
    lookupUR (insertUR l u rid) w = lookupUR l w := by
  have hne : ¬ (u = w) := fun h => hw h.symm
  simp only [lookupUR, insertUR]
  rw [List.find?_cons_of_neg _ (by simpa using hne), find?_fst_filter_ne l u w hw]

/-- Index removal for one user does not affect lookups of another. -/
theorem lookupUR_removeUR_ne (l : List (String × Nat)) (u w : String)
    (hw : ¬ w = u) :
    lookupUR (removeUR l u) w = lookupUR l w := by
  simp only [lookupUR, removeUR]
  rw [find?_fst_filter_ne l u w hw]

/-- A successful room lookup exhibits a member of the rooms list. -/
theorem lookupRoom_mem {l : List (Nat × Room)} {rid : Nat} {room : Room}
    (h : lookupRoom l rid = some room) : (rid, room) ∈ l := by
  simp only [lookupRoom] at h
  cases hf : l.find? fun p => p.1 = rid with
  | none => rw [hf] at h; cases h
  | some q =>
    rw [hf] at h
    have hq : q ∈ l := List.mem_of_find?_eq_some hf
    have hk : q.1 = rid := by simpa using List.find?_some hf
    have hv : q.2 = room := by simpa using h
    have : q = (rid, room) := by
      cases q
      simp_all
    rwa [this] at hq

/-- A successful index lookup exhibits an index entry. -/
theorem lookupUR_mem {l : List (String × Nat)} {u : String} {rid : Nat}
    (h : lookupUR l u = some rid) : (u, rid) ∈ l := by
  simp only [lookupUR] at h
  cases hf : l.find? fun e => e.1 = u with
  | none => rw [hf] at h; cases h
  | some q =>
    rw [hf] at h
    have hq : q ∈ l := List.mem_of_find?_eq_some hf
    have hk : q.1 = u := by simpa using List.find?_some hf
    have hv : q.2 = rid := by simpa using h
    have : q = (u, rid) := by
      cases q
      simp_all
    rwa [this] at hq

/-- Room keys stay duplicate-free under insertion. -/
theorem nodup_keys_insertRoom (l : List (Nat × Room)) (rid : Nat) (room : Room)
    (h : (l.map Prod.fst).Nodup) :
    ((insertRoom l rid room).map Prod.fst).Nodup := by
  simp only [insertRoom, List.map_cons]
  refine List.nodup_cons.mpr ⟨?_, ?_⟩
  · intro hmem
    rcases List.mem_map.mp hmem with ⟨p, hp, hfst⟩
    have hkeep := (List.mem_filter.mp hp).2
    simp only [decide_eq_true_eq] at hkeep
    exact hkeep hfst
  · exact h.sublist (List.Sublist.map _ (List.filter_sublist l))

/-- With duplicate-free keys, the first match of a key is any member
carrying that key. -/
theorem find?_key_eq {l : List (Nat × Room)} {p : Nat × Room} {k : Nat}
    (hnd : (l.map Prod.fst).Nodup) (hp : p ∈ l) (hk : p.1 = k) :
    l.find? (fun q => q.1 = k) = some p := by
  induction l with
  | nil => cases hp
  | cons e t ih =>
    simp only [List.map_cons, List.nodup_cons] at hnd
    rcases List.mem_cons.mp hp with rfl | hpt
    · rw [List.find?_cons_of_pos _ (by simpa using hk)]
    · have hek : ¬ e.1 = k := by
        intro he
        exact hnd.1 (he ▸ hk ▸ List.mem_map_of_mem Prod.fst hpt)
      rw [List.find?_cons_of_neg _ (by simpa using hek)]
      exact ih hnd.2 hpt

/-- With duplicate-free keys, a member carrying the looked-up key is the
room the lookup returns. -/
theorem lookupRoom_unique {s : Service} {rid : Nat} {room : Room}
    {p : Nat × Room} (hnd : (s.rooms.map Prod.fst).Nodup)
    (hlook : lookupRoom s.rooms rid = some room)
    (hp : p ∈ s.rooms) (hk : p.1 = rid) : p.2 = room := by
  have hf := find?_key_eq hnd hp hk
  simp only [lookupRoom, hf, Option.map_some] at hlook
  simpa using hlook

/-- Adding a spectator adds exactly that username to the members. -/
theorem mem_members_addSpectator (room : Room) (u w : String) :
    w ∈ members { room with spectators := room.spectators ++ [u] } ↔
      w ∈ members room ∨ w = u := by
  simp only [members, List.mem_append, List.mem_singleton]
  tauto

/-- Re-seating a user who was a member keeps the member set. -/
theorem mem_members_reseat (room : Room) (u : String) (room2 : Room)
    (h2 : ∀ w, w ∈ members room2 ↔ w = u ∨ w ∈ members (removeUser room u))
    (hu : u ∈ members room) :
    ∀ w, w ∈ members room2 ↔ w ∈ members room := by
  intro w
  rw [h2 w, mem_members_removeUser]
  constructor
  · rintro (rfl | ⟨hw, -⟩)
    · exact hu
    · exact hw
  · intro hw
    by_cases hwu : w = u
    · exact Or.inl hwu
    · exact Or.inr ⟨hw, hwu⟩

/-- Replacing a room by one with the same member set preserves the
invariant. -/
theorem Inv_replace (s : Service) (rid : Nat) (room room1 : Room)
    (hinv : Inv s) (hlook : lookupRoom s.rooms rid = some room)
    (hmem : ∀ w, w ∈ members room1 ↔ w ∈ members room) :
    Inv { s with rooms := insertRoom s.rooms rid room1 } := by
  obtain ⟨hnd, hidx, hbak⟩ := hinv
  have hpair : (rid, room) ∈ s.rooms := lookupRoom_mem hlook
  refine ⟨nodup_keys_insertRoom _ _ _ hnd, ?_, ?_⟩
  · intro p hp w hw
    rcases List.mem_cons.mp hp with rfl | hp'
    · exact hidx (rid, room) hpair w ((hmem w).mp hw)
    · exact hidx p (List.mem_filter.mp hp').1 w hw
  · intro e he
    obtain ⟨p, hp, hpe, hm2⟩ := hbak e he
    by_cases hpk : p.1 = rid
    · have hproom : p.2 = room := lookupRoom_unique hnd hlook hp hpk
      refine ⟨(rid, room1), List.mem_cons_self _ _, ?_, ?_⟩
      · rw [← hpk]
        exact hpe
      · rw [hmem e.1, ← hproom]
        exact hm2
    · exact ⟨p, List.mem_cons_of_mem _ (List.mem_filter.mpr ⟨hp, by simp [hpk]⟩),
        hpe, hm2⟩

/-- `create_room` preserves the invariant when the fresh UUID is unused and
the creator is in no room. -/
theorem Inv_create (s : Service) (u title : String) (rid : Nat)
    (hinv : Inv s)
    (hfresh : (s.rooms.find? fun p => p.1 = rid) = none)
    (hfree : lookupUR s.userRoom u = none) :
    Inv (create_room s u title rid).1 := by
  obtain ⟨hnd, hidx, hbak⟩ := hinv
  simp only [create_room]
  refine ⟨nodup_keys_insertRoom _ _ _ hnd, ?_, ?_⟩
  · intro p hp w hw
    rcases List.mem_cons.mp hp with rfl | hp'
    · have hwu : w = u := by simpa [members] using hw
      subst hwu
      exact lookupUR_insert_self _ _ _
    · have hkeep := List.mem_filter.mp hp'
      have hidxp := hidx p hkeep.1 w hw
      have hwu : ¬ w = u := by
        intro h
        rw [h, hfree] at hidxp
        cases hidxp
      rw [lookupUR_insert_ne _ _ _ _ hwu]
      exact hidxp
  · intro e he
    rcases List.mem_cons.mp he with rfl | he'
    · refine ⟨(rid, _), List.mem_cons_self _ _, rfl, ?_⟩
      simp [members]
    · have hkeep := List.mem_filter.mp he'
      obtain ⟨p, hp, hpe, hm⟩ := hbak e hkeep.1
      have hpk : ¬ p.1 = rid := by
        have := List.find?_eq_none.mp hfresh p hp
        simpa using this
      exact ⟨p, List.mem_cons_of_mem _ (List.mem_filter.mpr ⟨hp, by simp [hpk]⟩),
        hpe, hm⟩

/-- `join_room` preserves the invariant when the caller is in no other
room. -/
theorem Inv_join (s s1 : Service) (u : String) (rid : Nat)
    (snap : RoomSnapshot) (hinv : Inv s)
    (hguard : ∀ rid', lookupUR s.userRoom u = some rid' → rid' = rid)
    (hok : join_room s u rid = .ok (s1, snap)) : Inv s1 := by
  obtain ⟨hnd, hidx, hbak⟩ := hinv
  unfold join_room at hok
  split at hok
  · cases hok
  · rename_i room hlook
    have hpair : (rid, room) ∈ s.rooms := lookupRoom_mem hlook
    split at hok
    · rename_i hmem
      injection hok with h
      injection h with h1 h2
      subst h1
      refine ⟨hnd, ?_, ?_⟩
      · intro p hp w hw
        by_cases hwu : w = u
        · subst hwu
          have hpk : p.1 = rid := hguard p.1 (hidx p hp w hw)
          rw [hpk]
          exact lookupUR_insert_self _ _ _
        · rw [lookupUR_insert_ne _ _ _ _ hwu]
          exact hidx p hp w hw
      · intro e he
        rcases List.mem_cons.mp he with rfl | he'
        · exact ⟨(rid, room), hpair, rfl, (members_iff room u).mpr hmem⟩
        · exact hbak e (List.mem_filter.mp he').1
    · rename_i hmem
      injection hok with h
      injection h with h1 h2
      subst h1
      have hnou : ∀ p ∈ s.rooms, ¬ u ∈ members p.2 := by
        intro p hp hu
        have hpk : p.1 = rid := hguard p.1 (hidx p hp u hu)
        have hpr : p.2 = room := lookupRoom_unique hnd hlook hp hpk
        rw [hpr, members_iff] at hu
        exact hmem hu
      refine ⟨nodup_keys_insertRoom _ _ _ hnd, ?_, ?_⟩
      · intro p hp w hw
        rcases List.mem_cons.mp hp with rfl | hp'
        · rcases (mem_members_addSpectator room u w).mp hw with hw' | rfl
          · have hwu : ¬ w = u := fun h => hnou (rid, room) hpair (h ▸ hw')
            rw [lookupUR_insert_ne _ _ _ _ hwu]
            exact hidx (rid, room) hpair w hw'
          · exact lookupUR_insert_self _ _ _
        · have hk := List.mem_filter.mp hp'
          have hwu : ¬ w = u := fun h => hnou p hk.1 (h ▸ hw)
          rw [lookupUR_insert_ne _ _ _ _ hwu]
          exact hidx p hk.1 w hw
      · intro e he
        rcases List.mem_cons.mp he with rfl | he'
        · exact ⟨(rid, _), List.mem_cons_self _ _, rfl,
            (mem_members_addSpectator room u u).mpr (Or.inr rfl)⟩
        · have hk := List.mem_filter.mp he'
          obtain ⟨p, hp, hpe, hm⟩ := hbak e hk.1
          by_cases hpk : p.1 = rid
          · have hpr : p.2 = room := lookupRoom_unique hnd hlook hp hpk
            refine ⟨(rid, _), List.mem_cons_self _ _, ?_, ?_⟩
            · rw [← hpk]
              exact hpe
            · exact (mem_members_addSpectator room u e.1).mpr
                (Or.inl (hpr ▸ hm))
          · exact ⟨p, List.mem_cons_of_mem _
              (List.mem_filter.mpr ⟨hp, by simp [hpk]⟩), hpe, hm⟩

/-- Departure core, empty-room case: dropping the room and the index entry
preserves the invariant. -/
theorem Inv_leave_empty (s : Service) (u : String) (rid : Nat)
    (room room2 : Room) (hinv : Inv s)
    (hfu : lookupUR s.userRoom u = some rid)
    (hlr : lookupRoom s.rooms rid = some room)
    (hmem2 : ∀ w, w ∈ members room2 ↔ w ∈ members room ∧ ¬ w = u)
    (hnil : members room2 = []) :
    Inv { rooms := removeRoom s.rooms rid, userRoom := removeUR s.userRoom u } := by
  obtain ⟨hnd, hidx, hbak⟩ := hinv
  refine ⟨hnd.sublist (List.Sublist.map _ (List.filter_sublist _)), ?_, ?_⟩
  · intro p hp w hw
    have hk := List.mem_filter.mp hp
    have hpk : ¬ p.1 = rid := by simpa using hk.2
    have hidxp := hidx p hk.1 w hw
    have hwu : ¬ w = u := by
      intro h
      rw [h, hfu] at hidxp
      injection hidxp with hh
      exact hpk hh.symm
    rw [lookupUR_removeUR_ne _ _ _ hwu]
    exact hidxp
  · intro e he
    have hk := List.mem_filter.mp he
    have heu : ¬ e.1 = u := by simpa using hk.2
    obtain ⟨q, hq, hqe, hqm⟩ := hbak e hk.1
    by_cases hqk : q.1 = rid
    · exfalso
      have hqr : q.2 = room := lookupRoom_unique hnd hlr hq hqk
      have hmem : e.1 ∈ members room2 := (hmem2 e.1).mpr ⟨hqr ▸ hqm, heu⟩
      rw [hnil] at hmem
      cases hmem
    · exact ⟨q, List.mem_filter.mpr ⟨hq, by simp [hqk]⟩, hqe, hqm⟩

/-- Departure core, non-empty case: storing the shrunk room and dropping
the index entry preserves the invariant. -/
theorem Inv_leave_keep (s : Service) (u : String) (rid : Nat)
    (room room2 : Room) (hinv : Inv s)
    (hfu : lookupUR s.userRoom u = some rid)
    (hlr : lookupRoom s.rooms rid = some room)
    (hmem2 : ∀ w, w ∈ members room2 ↔ w ∈ members room ∧ ¬ w = u) :
    Inv { rooms := insertRoom s.rooms rid room2,
          userRoom := removeUR s.userRoom u } := by
  obtain ⟨hnd, hidx, hbak⟩ := hinv
  have hpair : (rid, room) ∈ s.rooms := lookupRoom_mem hlr
  refine ⟨nodup_keys_insertRoom _ _ _ hnd, ?_, ?_⟩
  · intro p hp w hw
    rcases List.mem_cons.mp hp with rfl | hp'
    · obtain ⟨hwr, hwu⟩ := (hmem2 w).mp hw
      rw [lookupUR_removeUR_ne _ _ _ hwu]
      exact hidx (rid, room) hpair w hwr
    · have hk := List.mem_filter.mp hp'
      have hpk : ¬ p.1 = rid := by simpa using hk.2
      have hidxp := hidx p hk.1 w hw
      have hwu : ¬ w = u := by
        intro h
        rw [h, hfu] at hidxp
        injection hidxp with hh
        exact hpk hh.symm
      rw [lookupUR_removeUR_ne _ _ _ hwu]
      exact hidxp
  · intro e he
    have hk := List.mem_filter.mp he
    have heu : ¬ e.1 = u := by simpa using hk.2
    obtain ⟨q, hq, hqe, hqm⟩ := hbak e hk.1
    by_cases hqk : q.1 = rid
    · have hqr : q.2 = room := lookupRoom_unique hnd hlr hq hqk
      refine ⟨(rid, room2), List.mem_cons_self _ _, ?_, ?_⟩
      · rw [← hqk]
        exact hqe
      · exact (hmem2 e.1).mpr ⟨hqr ▸ hqm, heu⟩
    · exact ⟨q, List.mem_cons_of_mem _
        (List.mem_filter.mpr ⟨hq, by simp [hqk]⟩), hqe, hqm⟩

/-- `leave_room` preserves the invariant. -/
theorem Inv_leave (s : Service) (u : String) (hinv : Inv s) :
    Inv (leave_room s u).1 := by
  unfold leave_room
  split
  · exact hinv
  · rename_i rid hfu
    split
    · rename_i hlr
      obtain ⟨p, hp, hpk, -⟩ := hinv.2.2 (u, rid) (lookupUR_mem hfu)
      exfalso
      simp only [lookupRoom] at hlr
      cases hf2 : s.rooms.find? fun q => q.1 = rid with
      | some q =>
        rw [hf2] at hlr
        cases hlr
      | none =>
        have := List.find?_eq_none.mp hf2 p hp
        simp [hpk] at this
    · rename_i room hlr
      obtain ⟨p, hp, hpk, hum⟩ := hinv.2.2 (u, rid) (lookupUR_mem hfu)
      have hroom : p.2 = room := lookupRoom_unique hinv.1 hlr hp hpk
      have hmemRem : ∀ w, w ∈ members (removeUser room u) ↔
          w ∈ members room ∧ ¬ w = u := fun w => mem_members_removeUser room u w
      have hmemReset : ∀ w,
          w ∈ members (resetRoomAfterMatch (removeUser room u)) ↔
            w ∈ members room ∧ ¬ w = u := by
        intro w
        rw [members_resetRoomAfterMatch]
        exact hmemRem w
      dsimp only
      split
      · rename_i hcond
        split
        · rename_i hempty
          exact Inv_leave_empty s u rid room _ hinv hfu hlr hmemReset
            ((members_nil_iff _).mp hempty)
        · exact Inv_leave_keep s u rid room _ hinv hfu hlr hmemReset
      · split
        · rename_i hempty
          exact Inv_leave_empty s u rid room _ hinv hfu hlr hmemRem
            ((members_nil_iff _).mp hempty)
        · exact Inv_leave_keep s u rid room _ hinv hfu hlr hmemRem

/-- `take_seat` preserves the invariant. -/
theorem Inv_seat (s : Service) (u : String) (k : SeatKind)
    (out : Service × Nat × RoomSnapshot) (hinv : Inv s)
    (hok : take_seat s u k = .ok out) : Inv out.1 := by
  unfold take_seat at hok
  split at hok
  · cases hok
  · rename_i rid hfu
    split at hok
    · cases hok
    · rename_i room hlr
      split at hok
      · cases hok
      · rename_i hplay
        have hum : u ∈ members room := by
          obtain ⟨q, hq, hqk, hqm⟩ := hinv.2.2 (u, rid) (lookupUR_mem hfu)
          exact (lookupRoom_unique hinv.1 hlr hq hqk) ▸ hqm
        cases k with
        | Black =>
          dsimp only at hok
          by_cases hbt : (removeUser room u).seats.black.isSome = true
          · rw [if_pos hbt] at hok
            cases hok
          · rw [if_neg hbt] at hok
            injection hok with h
            subst h
            apply Inv_replace s rid room _ hinv hlr
            refine mem_members_reseat room u _ ?_ hum
            intro w
            have hblack : (removeUser room u).seats.black = none := by
              cases hcb : (removeUser room u).seats.black with
              | none => rfl
              | some t =>
                rw [hcb] at hbt
                simp at hbt
            simp [members, hblack]
        | White =>
          dsimp only at hok
          by_cases hwt : (removeUser room u).seats.white.isSome = true
          · rw [if_pos hwt] at hok
            cases hok
          · rw [if_neg hwt] at hok
            injection hok with h
            subst h
            apply Inv_replace s rid room _ hinv hlr
            refine mem_members_reseat room u _ ?_ hum
            intro w
            have hwhite : (removeUser room u).seats.white = none := by
              cases hcw : (removeUser room u).seats.white with
              | none => rfl
              | some t =>
                rw [hcw] at hwt
                simp at hwt
            simp [members, hwhite]
            aesop
        | Spectator =>
          dsimp only at hok
          injection hok with h
          subst h
          apply Inv_replace s rid room _ hinv hlr
          refine mem_members_reseat room u _ ?_ hum
          intro w
          simp only [members, List.mem_append, List.mem_singleton]
          tauto

/-- `set_ready` preserves the invariant. -/
theorem Inv_ready (s : Service) (u : String) (b : Bool) (mid : Nat)
    (out : Service × Nat × RoomSnapshot × Option Event) (hinv : Inv s)
    (hok : set_ready s u b mid = .ok out) : Inv out.1 := by
  unfold set_ready at hok
  split at hok
  · cases hok
  · rename_i rid hfu
    split at hok
    · cases hok
    · rename_i room hlr
      split at hok
      · cases hok
      · rename_i hplay
        dsimp only at hok
        by_cases hseat : ((room.seats.black.any fun t => t.username = u) ||
            (room.seats.white.any fun t => t.username = u)) = false
        · rw [if_pos hseat] at hok
          cases hok
        · rw [if_neg hseat] at hok
          by_cases hboth : bothReady (readySeats room.seats u b) = true
          · rw [if_pos hboth] at hok
            injection hok with h
            subst h
            exact Inv_replace s rid room _ hinv hlr
              fun w => by rw [members_startRoom]
          · rw [if_neg hboth] at hok
            injection hok with h
            subst h
            exact Inv_replace s rid room _ hinv hlr
              fun w => by rw [members_seatsUpdatedRoom]

/-- `match_move` preserves the invariant. -/
theorem Inv_move (s : Service) (u : String) (coord : Coord)
    (out : Service × Nat × MoveResp × List Event) (hinv : Inv s)
    (hok : match_move s u coord = .ok out) : Inv out.1 := by
  unfold match_move at hok
  split at hok
  · cases hok
  · rename_i rid hfu
    split at hok
    · cases hok
    · rename_i room hlr
      split at hok
      · cases hok
      · rename_i hplay
        split at hok
        · cases hok
        · rename_i m hm
          split at hok
          · injection hok with h
            subst h
            exact hinv
          · rename_i hseat
            split at hok
            · injection hok with h
              subst h
              exact hinv
            · rename_i hout
              split at hok
              · injection hok with h
                subst h
                exact hinv
              · rename_i hcell
                injection hok with h
                subst h
                unfold acceptedMove
                dsimp only
                split
                · exact Inv_replace s rid room _ hinv hlr
                    fun w => by rw [members_resetRoomAfterMatch]
                · exact Inv_replace s rid room _ hinv hlr
                    fun w => by rw [members_continueRoom]

/-- Every state reachable under the socket layer's calling discipline
satisfies the coherence invariant. -/
theorem Inv_reach {s : Service} (h : Reach s) : Inv s := by
  induction h with
  | init =>
    refine ⟨List.nodup_nil, ?_, ?_⟩
    · intro p hp
      cases hp
    · intro e he
      cases he
  | create s u title rid hr hfresh hfree ih => exact Inv_create s u title rid ih hfresh hfree
  | join s s1 u rid snap hr hguard hok ih => exact Inv_join s s1 u rid snap ih hguard hok
  | leave s u hr ih => exact Inv_leave s u ih
  | seat s u k out hr hok ih => exact Inv_seat s u k out ih hok
  | ready s u b mid out hr hok ih => exact Inv_ready s u b mid out ih hok
  | move s u coord out hr hok ih => exact Inv_move s u coord out ih hok

/-- A `match.over` event with reason `five_in_a_row`. -/
def isFiveOverEvt : Event → Bool
  | .matchOver _ _ _ reason => reason = "five_in_a_row"
  | _ => false

/-! ### Claims -/

/-- C1: code behavior at the failing input of the claim. In a `Playing`
room with both seats occupied and an active match, the spectator carol
leaves: contrary to the claim (and to the code's own comment), `leave_room`
emits a `match.over` event with result `draw` and reason `"disconnect"`,
resets the room to `Waiting` and drops the match, even though the leaver
occupied no seat. -/
theorem c1_spectator_leave_ends_match :
    let m : GameMatch := ⟨9, .black, [], emptyBoard⟩
    let room : Room :=
      { roomId := 5, title := "t"
        seats := { black := some ⟨"alice", true⟩, white := some ⟨"bob", true⟩ }
        spectators := ["carol"], state := .Playing, currentMatch := some m }
    let s : Service := ⟨[(5, room)], [("alice", 5), ("bob", 5), ("carol", 5)]⟩
    (leave_room s "carol").2.map Prod.snd =
      some [Event.matchOver 9 "draw" none "disconnect"] ∧
    (lookupRoom (leave_room s "carol").1.rooms 5).map Room.state =
      some RoomState.Waiting ∧
    (lookupRoom (leave_room s "carol").1.rooms 5).map
      (fun r => r.currentMatch.isSome) = some false :=
  ⟨rfl, rfl, rfl⟩

/-- C2 (amended): in every state reachable when `create_room` and
`join_room` are invoked only under the socket layer's leave-first
discipline, each username appears in at most one room across all seats and
spectator lists, the username-to-room index maps each such username to
exactly that room, and the index maps no username that is in no room. -/
theorem c2_membership_invariant_guarded (s : Service) (h : Reach s) :
    ClaimProp s := by
  obtain ⟨hnd, hidx, hbak⟩ := Inv_reach h
  refine ⟨?_, hidx, hbak⟩
  intro p hp q hq w hwp hwq
  have h1 := hidx p hp w hwp
  have h2 := hidx q hq w hwq
  rw [h1] at h2
  exact Option.some.inj h2

/-- C2 witness: the state after one room creation satisfies the claimed
membership property. -/
theorem c2_membership_invariant_guarded_witness :
    ClaimProp (create_room emptyService "alice" "t" 0).1 :=
  c2_membership_invariant_guarded _
    (Reach.create emptyService "alice" "t" 0 Reach.init rfl rfl)

/-- C2 counterexample: under arbitrary sequences of the public room-service
operations, as the claim quantifies them, the property fails: two
`create_room` calls by the same user (the raw service never removes the
caller from a previous room) leave alice seated in two distinct rooms. -/
theorem c2_counterexample_double_create :
    ReachAny (create_room (create_room emptyService "alice" "t" 0).1
      "alice" "t" 1).1 ∧
    ¬ ClaimProp (create_room (create_room emptyService "alice" "t" 0).1
      "alice" "t" 1).1 := by
  constructor
  · exact ReachAny.create _ "alice" "t" 1
      (ReachAny.create _ "alice" "t" 0 ReachAny.init rfl) rfl
  · unfold ClaimProp
    decide

/-- C3: an accepted `match_move` declares the mover the winner (a
`match.over` event with reason `five_in_a_row`) if and only if, on the
board after placing the stone, some contiguous run of the mover's color
through the placed cell in one of the four directions has length at least
5. -/
theorem c3_win_iff_five_run (s : Service) (u : String) (coord : Coord)
    (rid : Nat) (room : Room) (m : GameMatch)
    (H1 : lookupUR s.userRoom u = some rid)
    (H2 : lookupRoom s.rooms rid = some room)
    (H3 : room.state = .Playing)
    (H4 : room.currentMatch = some m)
    (hseat : seatOf room m.turn = some u)
    (hin : ¬ outOfRange coord)
    (hcell : m.board coord.row.toNat coord.col.toNat = 0) :
    ∃ s1 events, match_move s u coord =
        .ok (s1, rid, .accepted m.turn.other ⟨m.turn, coord⟩, events) ∧
      (events.any isFiveOverEvt = true ↔
        SpecWin (pushMove m coord).board coord.row.toNat coord.col.toNat
          (colorVal m.turn)) := by
  have hacc := match_move_accepted s u coord rid room m H1 H2 H3 H4 hseat hin hcell
  simp only [outOfRange, not_or, not_lt, not_le] at hin
  obtain ⟨-, -, hr, hc⟩ := hin
  have hv : (pushMove m coord).board coord.row.toNat coord.col.toNat =
      colorVal m.turn := by
    simp [pushMove, placeStone]
  have hiff := is_win_iff_specWin (pushMove m coord).board coord.row.toNat
    coord.col.toNat (colorVal m.turn) hr hc hv
  cases hw : is_win (pushMove m coord).board coord.row.toNat coord.col.toNat
      (colorVal m.turn) with
  | true =>
    have key := acceptedMove_win s rid room m coord hw
    rw [key] at hacc
    refine ⟨_, _, hacc, ?_⟩
    have hsw := hiff.mp hw
    constructor
    · intro _
      exact hsw
    · intro _
      simp [isFiveOverEvt]
  | false =>
    have hns : ¬ SpecWin (pushMove m coord).board coord.row.toNat
        coord.col.toNat (colorVal m.turn) := fun hx => by
      have hcontra := hiff.mpr hx
      rw [hw] at hcontra
      cases hcontra
    by_cases hlen : boardSize * boardSize ≤ (pushMove m coord).moves.length
    · have key := acceptedMove_draw s rid room m coord hw hlen
      rw [key] at hacc
      refine ⟨_, _, hacc, ?_⟩
      constructor
      · intro hany
        simp [isFiveOverEvt] at hany
      · intro hx
        exact absurd hx hns
    · have key := acceptedMove_continue s rid room m coord hw hlen
      rw [key] at hacc
      refine ⟨_, _, hacc, ?_⟩
      constructor
      · intro hany
        simp [isFiveOverEvt] at hany
      · intro hx
        exact absurd hx hns

/-- C3 witness: alice completes five in a row at (7, 7) on a board already
holding her stones at (7, 3) through (7, 6). -/
theorem c3_win_iff_five_run_witness :
    let board : Board := fun r c =>
      if r = 7 ∧ (c = 3 ∨ c = 4 ∨ c = 5 ∨ c = 6) then 1 else 0
    let m : GameMatch := ⟨9, .black, [], board⟩
    let room : Room :=
      { roomId := 5, title := "t"
        seats := { black := some ⟨"alice", true⟩, white := some ⟨"bob", true⟩ }
        spectators := [], state := .Playing, currentMatch := some m }
    let s : Service := ⟨[(5, room)], [("alice", 5), ("bob", 5)]⟩
    ∃ s1 events, match_move s "alice" ⟨7, 7⟩ =
        .ok (s1, 5, .accepted m.turn.other ⟨m.turn, ⟨7, 7⟩⟩, events) ∧
      (events.any isFiveOverEvt = true ↔
        SpecWin (pushMove m ⟨7, 7⟩).board (7 : Int).toNat (7 : Int).toNat
          (colorVal m.turn)) :=
  c3_win_iff_five_run _ "alice" ⟨7, 7⟩ 5 _ _ rfl rfl rfl rfl rfl
    (by decide) (by decide)

/-- C4: for a `match_move` on a room in state `Playing` with a current
match, the soft rejections behave as claimed: `not_your_turn` when the
caller does not occupy the seat whose turn it is, `out_of_range` when the
coordinate lies outside `[0, 15) x [0, 15)`, `overlap` when the target cell
is occupied, each leaving the service state unchanged with an empty
broadcast-events list; and an in-turn, in-range move onto an empty cell is
accepted. -/
theorem c4_move_soft_rejections (s : Service) (u : String) (coord : Coord)
    (rid : Nat) (room : Room) (m : GameMatch)
    (H1 : lookupUR s.userRoom u = some rid)
    (H2 : lookupRoom s.rooms rid = some room)
    (H3 : room.state = .Playing)
    (H4 : room.currentMatch = some m) :
    (¬ seatOf room m.turn = some u →
      match_move s u coord = .ok (s, rid, .rejected "not_your_turn", [])) ∧
    (seatOf room m.turn = some u → outOfRange coord →
      match_move s u coord = .ok (s, rid, .rejected "out_of_range", [])) ∧
    (seatOf room m.turn = some u → ¬ outOfRange coord →
      ¬ m.board coord.row.toNat coord.col.toNat = 0 →
      match_move s u coord = .ok (s, rid, .rejected "overlap", [])) ∧
    (seatOf room m.turn = some u → ¬ outOfRange coord →
      m.board coord.row.toNat coord.col.toNat = 0 →
      ∃ s1 events, match_move s u coord =
        .ok (s1, rid, .accepted m.turn.other ⟨m.turn, coord⟩, events)) := by
  refine ⟨?_, ?_, ?_, ?_⟩
  · intro hseat
    simp [match_move, H1, H2, H3, H4, hseat]
  · intro hseat hout
    simp [match_move, H1, H2, H3, H4, hseat, hout]
  · intro hseat hout hcell
    simp [match_move, H1, H2, H3, H4, hseat, hout, hcell]
  · intro hseat hout hcell
    have hacc := match_move_accepted s u coord rid room m H1 H2 H3 H4 hseat hout hcell
    cases hw : is_win (pushMove m coord).board coord.row.toNat coord.col.toNat
        (colorVal m.turn) with
    | true =>
      exact ⟨_, _, by rw [hacc, acceptedMove_win s rid room m coord hw]⟩
    | false =>
      by_cases hlen : boardSize * boardSize ≤ (pushMove m coord).moves.length
      · exact ⟨_, _, by rw [hacc, acceptedMove_draw s rid room m coord hw hlen]⟩
      · exact ⟨_, _, by rw [hacc, acceptedMove_continue s rid room m coord hw hlen]⟩

/-- C4 witness: alice to move as black on an empty board; the statement is
instantiated at the coordinate (0, 0). -/
theorem c4_move_soft_rejections_witness :
    let m : GameMatch := ⟨9, .black, [], emptyBoard⟩
    let room : Room :=
      { roomId := 5, title := "t"
        seats := { black := some ⟨"alice", true⟩, white := some ⟨"bob", true⟩ }
        spectators := [], state := .Playing, currentMatch := some m }
    let s : Service := ⟨[(5, room)], [("alice", 5), ("bob", 5)]⟩
    (¬ seatOf room m.turn = some "alice" →
      match_move s "alice" ⟨0, 0⟩ = .ok (s, 5, .rejected "not_your_turn", [])) ∧
    (seatOf room m.turn = some "alice" → outOfRange ⟨0, 0⟩ →
      match_move s "alice" ⟨0, 0⟩ = .ok (s, 5, .rejected "out_of_range", [])) ∧
    (seatOf room m.turn = some "alice" → ¬ outOfRange ⟨0, 0⟩ →
      ¬ m.board (0 : Int).toNat (0 : Int).toNat = 0 →
      match_move s "alice" ⟨0, 0⟩ = .ok (s, 5, .rejected "overlap", [])) ∧
    (seatOf room m.turn = some "alice" → ¬ outOfRange ⟨0, 0⟩ →
      m.board (0 : Int).toNat (0 : Int).toNat = 0 →
      ∃ s1 events, match_move s "alice" ⟨0, 0⟩ =
        .ok (s1, 5, .accepted Color.black.other ⟨.black, ⟨0, 0⟩⟩, events)) :=
  c4_move_soft_rejections _ "alice" ⟨0, 0⟩ 5 _ _ rfl rfl rfl rfl

/-- C5: for every accepted move: on a win, or on the 225th move without a
win (draw with reason `board_full`), the room reverts to `Waiting`, the
current match is dropped, both seated players' ready flags are cleared and
the events are exactly `[match.moved, match.over, room.snapshot]` in that
order; otherwise the turn flips to the opposite color and the events are
exactly `[match.moved]`. -/
theorem c5_accepted_move_outcomes (s : Service) (u : String) (coord : Coord)
    (rid : Nat) (room : Room) (m : GameMatch)
    (H1 : lookupUR s.userRoom u = some rid)
    (H2 : lookupRoom s.rooms rid = some room)
    (H3 : room.state = .Playing)
    (H4 : room.currentMatch = some m)
    (hseat : seatOf room m.turn = some u)
    (hin : ¬ outOfRange coord)
    (hcell : m.board coord.row.toNat coord.col.toNat = 0) :
    (is_win (pushMove m coord).board coord.row.toNat coord.col.toNat
        (colorVal m.turn) = true →
      ∃ s1 room1, match_move s u coord =
          .ok (s1, rid, .accepted m.turn.other ⟨m.turn, coord⟩,
            [Event.matchMoved m.matchId ⟨m.turn, coord⟩ m.turn.other,
             Event.matchOver m.matchId (resultString (some m.turn)) (some m.turn)
               "five_in_a_row",
             Event.roomSnapshot (snapshot room1)]) ∧
        lookupRoom s1.rooms rid = some room1 ∧
        room1.state = .Waiting ∧ room1.currentMatch = none ∧
        room1.seats.black = clearReady room.seats.black ∧
        room1.seats.white = clearReady room.seats.white) ∧
    (is_win (pushMove m coord).board coord.row.toNat coord.col.toNat
        (colorVal m.turn) = false →
      (pushMove m coord).moves.length = 225 →
      ∃ s1 room1, match_move s u coord =
          .ok (s1, rid, .accepted m.turn.other ⟨m.turn, coord⟩,
            [Event.matchMoved m.matchId ⟨m.turn, coord⟩ m.turn.other,
             Event.matchOver m.matchId "draw" none "board_full",
             Event.roomSnapshot (snapshot room1)]) ∧
        lookupRoom s1.rooms rid = some room1 ∧
        room1.state = .Waiting ∧ room1.currentMatch = none ∧
        room1.seats.black = clearReady room.seats.black ∧
        room1.seats.white = clearReady room.seats.white) ∧
    (is_win (pushMove m coord).board coord.row.toNat coord.col.toNat
        (colorVal m.turn) = false →
      (pushMove m coord).moves.length < 225 →
      ∃ s1 room1, match_move s u coord =
          .ok (s1, rid, .accepted m.turn.other ⟨m.turn, coord⟩,
            [Event.matchMoved m.matchId ⟨m.turn, coord⟩ m.turn.other]) ∧
        lookupRoom s1.rooms rid = some room1 ∧
        room1.state = .Playing ∧
        room1.currentMatch = some
          ⟨m.matchId, m.turn.other, m.moves ++ [⟨m.turn, coord⟩],
            placeStone m.board coord.row.toNat coord.col.toNat
              (colorVal m.turn)⟩) := by
  have hacc := match_move_accepted s u coord rid room m H1 H2 H3 H4 hseat hin hcell
  refine ⟨?_, ?_, ?_⟩
  · intro hw
    refine ⟨⟨insertRoom s.rooms rid (resetRoomAfterMatch room), s.userRoom⟩,
      resetRoomAfterMatch room, ?_, lookupRoom_insert_self _ _ _,
      rfl, rfl, rfl, rfl⟩
    rw [hacc, acceptedMove_win s rid room m coord hw]
  · intro hw hlen
    have hle : boardSize * boardSize ≤ (pushMove m coord).moves.length := by
      simp [boardSize, hlen]
    refine ⟨⟨insertRoom s.rooms rid (resetRoomAfterMatch room), s.userRoom⟩,
      resetRoomAfterMatch room, ?_, lookupRoom_insert_self _ _ _,
      rfl, rfl, rfl, rfl⟩
    rw [hacc, acceptedMove_draw s rid room m coord hw hle]
  · intro hw hlen
    have hle : ¬ boardSize * boardSize ≤ (pushMove m coord).moves.length := by
      simp only [boardSize]
      omega
    refine ⟨⟨insertRoom s.rooms rid (continueRoom room m coord), s.userRoom⟩,
      continueRoom room m coord, ?_, lookupRoom_insert_self _ _ _,
      H3, rfl⟩
    rw [hacc, acceptedMove_continue s rid room m coord hw hle]

/-- C5 witness: alice completes five in a row at (7, 7) on a board already
holding her stones at (7, 3) through (7, 6). -/
theorem c5_accepted_move_outcomes_witness :
    let board : Board := fun r c =>
      if r = 7 ∧ (c = 3 ∨ c = 4 ∨ c = 5 ∨ c = 6) then 1 else 0
    let m : GameMatch := ⟨9, .black, [], board⟩
    let room : Room :=
      { roomId := 5, title := "t"
        seats := { black := some ⟨"alice", true⟩, white := some ⟨"bob", true⟩ }
        spectators := [], state := .Playing, currentMatch := some m }
    let s : Service := ⟨[(5, room)], [("alice", 5), ("bob", 5)]⟩
    (is_win (pushMove m ⟨7, 7⟩).board (7 : Int).toNat (7 : Int).toNat
        (colorVal m.turn) = true →
      ∃ s1 room1, match_move s "alice" ⟨7, 7⟩ =
          .ok (s1, 5, .accepted m.turn.other ⟨m.turn, ⟨7, 7⟩⟩,
            [Event.matchMoved m.matchId ⟨m.turn, ⟨7, 7⟩⟩ m.turn.other,
             Event.matchOver m.matchId (resultString (some m.turn)) (some m.turn)
               "five_in_a_row",
             Event.roomSnapshot (snapshot room1)]) ∧
        lookupRoom s1.rooms 5 = some room1 ∧
        room1.state = .Waiting ∧ room1.currentMatch = none ∧
        room1.seats.black = clearReady room.seats.black ∧
        room1.seats.white = clearReady room.seats.white) ∧
    (is_win (pushMove m ⟨7, 7⟩).board (7 : Int).toNat (7 : Int).toNat
        (colorVal m.turn) = false →
      (pushMove m ⟨7, 7⟩).moves.length = 225 →
      ∃ s1 room1, match_move s "alice" ⟨7, 7⟩ =
          .ok (s1, 5, .accepted m.turn.other ⟨m.turn, ⟨7, 7⟩⟩,
            [Event.matchMoved m.matchId ⟨m.turn, ⟨7, 7⟩⟩ m.turn.other,
             Event.matchOver m.matchId "draw" none "board_full",
             Event.roomSnapshot (snapshot room1)]) ∧
        lookupRoom s1.rooms 5 = some room1 ∧
        room1.state = .Waiting ∧ room1.currentMatch = none ∧
        room1.seats.black = clearReady room.seats.black ∧
        room1.seats.white = clearReady room.seats.white) ∧
    (is_win (pushMove m ⟨7, 7⟩).board (7 : Int).toNat (7 : Int).toNat
        (colorVal m.turn) = false →
      (pushMove m ⟨7, 7⟩).moves.length < 225 →
      ∃ s1 room1, match_move s "alice" ⟨7, 7⟩ =
          .ok (s1, 5, .accepted m.turn.other ⟨m.turn, ⟨7, 7⟩⟩,
            [Event.matchMoved m.matchId ⟨m.turn, ⟨7, 7⟩⟩ m.turn.other]) ∧
        lookupRoom s1.rooms 5 = some room1 ∧
        room1.state = .Playing ∧
        room1.currentMatch = some
          ⟨m.matchId, m.turn.other, m.moves ++ [⟨m.turn, ⟨7, 7⟩⟩],
            placeStone m.board (7 : Int).toNat (7 : Int).toNat
              (colorVal m.turn)⟩) :=
  c5_accepted_move_outcomes _ "alice" ⟨7, 7⟩ 5 _ _ rfl rfl rfl rfl rfl
    (by decide) (by decide)

/-- C6: a successful `set_ready` call by a seated player of a waiting room
starts a match exactly when, after the update, both seats are occupied and
both ready: the room transitions to `Playing` with a new match carrying the
fresh UUID, turn Black, an empty board and an empty move list, and the
returned optional event is `match.start` with `{matchId, boardSize = 15,
turn: black, moves: []}`; otherwise the room stays `Waiting` with its match
slot untouched and no event is returned. -/
theorem c6_set_ready_start (s : Service) (u : String) (rb : Bool) (mid rid : Nat)
    (room : Room)
    (H1 : lookupUR s.userRoom u = some rid)
    (H2 : lookupRoom s.rooms rid = some room)
    (H3 : room.state = .Waiting)
    (H4 : ((room.seats.black.any fun t => t.username = u) ||
      (room.seats.white.any fun t => t.username = u)) = true) :
    (bothReady (readySeats room.seats u rb) = true →
      ∃ s1 snap, set_ready s u rb mid =
          .ok (s1, rid, snap, some (Event.matchStart mid boardSize .black [])) ∧
        ∃ room1, lookupRoom s1.rooms rid = some room1 ∧
          room1.state = .Playing ∧
          room1.currentMatch = some ⟨mid, .black, [], emptyBoard⟩ ∧
          room1.seats = readySeats room.seats u rb) ∧
    (bothReady (readySeats room.seats u rb) = false →
      ∃ s1 snap, set_ready s u rb mid = .ok (s1, rid, snap, none) ∧
        ∃ room1, lookupRoom s1.rooms rid = some room1 ∧
          room1.state = .Waiting ∧
          room1.currentMatch = room.currentMatch ∧
          room1.seats = readySeats room.seats u rb) := by
  have hguard : ¬ room.state = RoomState.Playing := by
    rw [H3]
    intro hcon
    cases hcon
  constructor
  · intro hboth
    have key : set_ready s u rb mid = .ok
        ({ s with rooms := insertRoom s.rooms rid (startRoom room u rb mid) },
          rid, snapshot (startRoom room u rb mid),
          some (Event.matchStart mid boardSize .black [])) := by
      simp [set_ready, H1, H2, hguard, H4, hboth]
    exact ⟨_, _, key, _, lookupRoom_insert_self _ _ _, rfl, rfl, rfl⟩
  · intro hboth
    have key : set_ready s u rb mid = .ok
        ({ s with rooms := insertRoom s.rooms rid (seatsUpdatedRoom room u rb) },
          rid, snapshot (seatsUpdatedRoom room u rb), none) := by
      simp [set_ready, H1, H2, hguard, H4, hboth]
    exact ⟨_, _, key, _, lookupRoom_insert_self _ _ _, H3, rfl, rfl⟩

/-- C6 witness: alice (black, becoming ready) and bob (white, already
ready) in a waiting room; the match starts. -/
theorem c6_set_ready_start_witness :
    let room : Room :=
      { roomId := 5, title := "t"
        seats := { black := some ⟨"alice", false⟩, white := some ⟨"bob", true⟩ }
        spectators := [], state := .Waiting, currentMatch := none }
    let s : Service := ⟨[(5, room)], [("alice", 5), ("bob", 5)]⟩
    (bothReady (readySeats room.seats "alice" true) = true →
      ∃ s1 snap, set_ready s "alice" true 77 =
          .ok (s1, 5, snap, some (Event.matchStart 77 boardSize .black [])) ∧
        ∃ room1, lookupRoom s1.rooms 5 = some room1 ∧
          room1.state = .Playing ∧
          room1.currentMatch = some ⟨77, .black, [], emptyBoard⟩ ∧
          room1.seats = readySeats room.seats "alice" true) ∧
    (bothReady (readySeats room.seats "alice" true) = false →
      ∃ s1 snap, set_ready s "alice" true 77 = .ok (s1, 5, snap, none) ∧
        ∃ room1, lookupRoom s1.rooms 5 = some room1 ∧
          room1.state = .Waiting ∧
          room1.currentMatch = room.currentMatch ∧
          room1.seats = readySeats room.seats "alice" true) :=
  c6_set_ready_start _ "alice" true 77 5 _ rfl rfl rfl (by decide)

/-- C8: `logout` is idempotent and total on its success path: for any
refresh token, `logout` succeeds, repeating it succeeds again (each call
sets the revocation timestamp of every matching session row to the current
instant, regardless of prior state, and unknown tokens succeed silently),
and after a `logout` any subsequent `refresh` with the same token fails
with `Unauthorized`. -/
theorem c8_logout_idempotent (h : String → String) (db : AuthDb) (tok : String)
    (now1 now2 now3 : Int) (cfg : Cfg) (newTok : String) (newSid : Nat) :
    ∃ db1, logout h db now1 tok = .ok db1 ∧
      (∀ t ∈ db1.sessions, t.tokenHash = h tok → t.revokedAt = some now1) ∧
      ∃ db2, logout h db1 now2 tok = .ok db2 ∧
        (∀ t ∈ db2.sessions, t.tokenHash = h tok → t.revokedAt = some now2) ∧
        refresh h db1 cfg now3 tok newTok newSid = .error .Unauthorized := by
  refine ⟨_, rfl, logout_marks_revoked h db now1 tok rfl, _, rfl,
    logout_marks_revoked h _ now2 tok rfl, ?_⟩
  set db1 : AuthDb :=
    { db with
      sessions := db.sessions.map fun t =>
        if t.tokenHash = h tok then { t with revokedAt := some now1 } else t } with hdb1
  cases hfind : db1.sessions.find? fun t => t.tokenHash = h tok with
  | none => simp [refresh, hfind]
  | some sess =>
    have hs : sess.tokenHash = h tok := by
      have := List.find?_some hfind
      simpa using this
    have hmem : sess ∈ db1.sessions := List.mem_of_find?_eq_some hfind
    have hrev : sess.revokedAt = some now1 :=
      logout_marks_revoked h db now1 tok rfl sess hmem hs
    cases huser : (db1.users.find? fun p => p.1 = sess.userId).map Prod.snd with
    | none => simp [refresh, hfind, huser]
    | some username => simp [refresh, hfind, huser, hrev]

/-- C8 witness: a concrete database with one live session for the token
hash of "tok" (hashing instantiated with the identity function). -/
theorem c8_logout_idempotent_witness :
    let db : AuthDb := ⟨[(1, "alice")], [⟨10, 1, "tok", 1000, none, 0⟩]⟩
    ∃ db1, logout id db 5 "tok" = .ok db1 ∧
      (∀ t ∈ db1.sessions, t.tokenHash = id "tok" → t.revokedAt = some 5) ∧
      ∃ db2, logout id db1 6 "tok" = .ok db2 ∧
        (∀ t ∈ db2.sessions, t.tokenHash = id "tok" → t.revokedAt = some 6) ∧
        refresh id db1 ⟨900, 3600, 60⟩ 7 "tok" "newTok" 11 = .error .Unauthorized :=
  c8_logout_idempotent id ⟨[(1, "alice")], [⟨10, 1, "tok", 1000, none, 0⟩]⟩
    "tok" 5 6 7 ⟨900, 3600, 60⟩ "newTok" 11

/-- C7: refreshing a valid (present, unrevoked, unexpired) token either
keeps the token (remaining lifetime above the clamped rotate threshold:
the same refresh token is returned with the remaining lifetime as its
expiry, only the access token is newly minted and the store is untouched)
or rotates it (the session row of the user is updated in place with the
new id, the new secret's hash, a full-TTL expiry, cleared revocation and a
fresh creation time, keeping the same user id). -/
theorem c7_refresh_rotation (h : String → String) (db : AuthDb) (cfg : Cfg)
    (now : Int) (tok newTok : String) (newSid : Nat) (sess : Session)
    (uname : String)
    (H1 : db.sessions.find? (fun t => t.tokenHash = h tok) = some sess)
    (H2 : (db.users.find? fun p => p.1 = sess.userId).map Prod.snd = some uname)
    (H3 : sess.revokedAt = none)
    (H4 : ¬ sess.expiresAt < now) :
    (clampInt cfg.rotateThreshold 0 cfg.refreshTtl < sess.expiresAt - now →
      refresh h db cfg now tok newTok newSid =
        .ok (db,
          { accessToken := mint_access_token cfg uname sess.userId now
            accessExpiresIn := cfg.accessTtl
            refreshToken := tok
            refreshExpiresIn := sess.expiresAt - now })) ∧
    (sess.expiresAt - now ≤ clampInt cfg.rotateThreshold 0 cfg.refreshTtl →
      ∃ db1, refresh h db cfg now tok newTok newSid =
        .ok (db1,
          { accessToken := mint_access_token cfg uname sess.userId now
            accessExpiresIn := cfg.accessTtl
            refreshToken := newTok
            refreshExpiresIn := cfg.refreshTtl }) ∧
        db1.users = db.users ∧
        db1.sessions.length = db.sessions.length ∧
        (∀ t ∈ db.sessions, t.userId = sess.userId →
          { t with
            id := newSid
            tokenHash := h newTok
            expiresAt := now + cfg.refreshTtl
            revokedAt := none
            createdAt := now } ∈ db1.sessions) ∧
        (∀ t ∈ db.sessions, ¬ t.userId = sess.userId → t ∈ db1.sessions)) := by
  constructor
  · intro hkeep
    have hrot : ¬ (sess.expiresAt - now ≤ clampInt cfg.rotateThreshold 0 cfg.refreshTtl) := by
      omega
    have hmax : max (sess.expiresAt - now) 0 = sess.expiresAt - now := by omega
    simp [refresh, H1, H2, H3, H4, hrot, hmax]
  · intro hrot
    refine ⟨{ db with
        sessions := db.sessions.map fun t =>
          if t.userId = sess.userId then
            { t with
              id := newSid
              tokenHash := h newTok
              expiresAt := now + cfg.refreshTtl
              revokedAt := none
              createdAt := now }
          else t }, ?_, rfl, List.length_map _ _, ?_, ?_⟩
    · simp [refresh, H1, H2, H3, H4, hrot]
    · intro t ht htu
      exact List.mem_map.mpr ⟨t, ht, by simp [htu]⟩
    · intro t ht htu
      exact List.mem_map.mpr ⟨t, ht, by simp [htu]⟩

/-- C7 witness: a session with 100 seconds of remaining lifetime against a
rotate threshold of 60 seconds (keep branch) and, vacuously instantiated,
the rotate branch. -/
theorem c7_refresh_rotation_witness :
    let db : AuthDb := ⟨[(1, "alice")], [⟨10, 1, "tok", 100, none, 0⟩]⟩
    let cfg : Cfg := ⟨900, 3600, 60⟩
    (clampInt cfg.rotateThreshold 0 cfg.refreshTtl < 100 - (0 : Int) →
      refresh id db cfg 0 "tok" "newTok" 11 =
        .ok (db,
          { accessToken := mint_access_token cfg "alice" 1 0
            accessExpiresIn := cfg.accessTtl
            refreshToken := "tok"
            refreshExpiresIn := 100 - (0 : Int) })) ∧
    (100 - (0 : Int) ≤ clampInt cfg.rotateThreshold 0 cfg.refreshTtl →
      ∃ db1, refresh id db cfg 0 "tok" "newTok" 11 =
        .ok (db1,
          { accessToken := mint_access_token cfg "alice" 1 0
            accessExpiresIn := cfg.accessTtl
            refreshToken := "newTok"
            refreshExpiresIn := cfg.refreshTtl }) ∧
        db1.users = db.users ∧
        db1.sessions.length = db.sessions.length ∧
        (∀ t ∈ db.sessions, t.userId = 1 →
          { t with
            id := 11
            tokenHash := id "newTok"
            expiresAt := 0 + cfg.refreshTtl
            revokedAt := none
            createdAt := 0 } ∈ db1.sessions) ∧
        (∀ t ∈ db.sessions, ¬ t.userId = 1 → t ∈ db1.sessions)) :=
  c7_refresh_rotation id ⟨[(1, "alice")], [⟨10, 1, "tok", 100, none, 0⟩]⟩
    ⟨900, 3600, 60⟩ 0 "tok" "newTok" 11 ⟨10, 1, "tok", 100, none, 0⟩ "alice"
    (by decide) (by decide) rfl (by decide)

/-- C9: an inbound envelope with protocol version other than 1 is never
dispatched, and a single `bad_request` error-response is sent back exactly
when the envelope carries a `reqId`; an envelope with version 1 and a type
outside the six recognized inbound types is not dispatched and produces a
single `bad_request` error-response to the sender. -/
theorem c9_version_and_type_gate (req : EnvelopeIn) :
    (¬ req.v = 1 →
      (processEnvelope req).1 = none ∧
      (req.reqId.isSome = true →
        ∃ e, (processEnvelope req).2 = [e] ∧ e.ok = some false ∧
          e.error.map WsError.code = some "bad_request" ∧ e.reqId = req.reqId) ∧
      (req.reqId = none → (processEnvelope req).2 = [])) ∧
    (req.v = 1 → ¬ req.type ∈ knownTypes →
      (processEnvelope req).1 = none ∧
      ∃ e, (processEnvelope req).2 = [e] ∧ e.ok = some false ∧
        e.error.map WsError.code = some "bad_request" ∧ e.reqId = req.reqId) := by
  constructor
  · intro hv
    refine ⟨by simp [processEnvelope, hv], ?_, ?_⟩
    · intro hr
      exact ⟨EnvelopeOut.resp_err req "bad_request" "协议版本不支持",
        by simp [processEnvelope, hv, hr], rfl, rfl, rfl⟩
    · intro hr
      simp [processEnvelope, hv, hr]
  · intro hv hty
    simp only [knownTypes, List.mem_cons, List.not_mem_nil, or_false, not_or] at hty
    obtain ⟨h1, h2, h3, h4, h5, h6⟩ := hty
    refine ⟨by simp [processEnvelope, hv, h1, h2, h3, h4, h5, h6], ?_⟩
    exact ⟨EnvelopeOut.resp_err req "bad_request" "未知消息类型",
      by simp [processEnvelope, hv, h1, h2, h3, h4, h5, h6], rfl, rfl, rfl⟩

/-- C9 witness: a concrete version-2 envelope carrying a `reqId`. -/
theorem c9_version_and_type_gate_witness :
    let req : EnvelopeIn := ⟨2, "room.join", some "r1", none, .null⟩
    (¬ req.v = 1 →
      (processEnvelope req).1 = none ∧
      (req.reqId.isSome = true →
        ∃ e, (processEnvelope req).2 = [e] ∧ e.ok = some false ∧
          e.error.map WsError.code = some "bad_request" ∧ e.reqId = req.reqId) ∧
      (req.reqId = none → (processEnvelope req).2 = [])) ∧
    (req.v = 1 → ¬ req.type ∈ knownTypes →
      (processEnvelope req).1 = none ∧
      ∃ e, (processEnvelope req).2 = [e] ∧ e.ok = some false ∧
        e.error.map WsError.code = some "bad_request" ∧ e.reqId = req.reqId) :=
  c9_version_and_type_gate ⟨2, "room.join", some "r1", none, .null⟩

/-- C10: the socket dispatcher substitutes defaults instead of rejecting:
a `room.takeSeat` payload without a string `seat` field is treated as seat
`"spectator"` (only an unrecognized seat string yields `bad_request`), and
a `room.ready` payload without a boolean `ready` field is treated as
`ready = false`. -/
theorem c10_payload_defaults (payload : Json) :
    ((payload.get "seat").bind Json.asStr = none →
      seatFromPayload payload = .ok .Spectator) ∧
    (∀ s : String, (payload.get "seat").bind Json.asStr = some s →
      ¬ s = "black" → ¬ s = "white" → ¬ s = "spectator" →
      seatFromPayload payload = .error "bad_request") ∧
    ((payload.get "ready").bind Json.asBool = none →
      readyFromPayload payload = false) := by
  refine ⟨?_, ?_, ?_⟩
  · intro h
    simp [seatFromPayload, h]
  · intro s h h1 h2 h3
    simp [seatFromPayload, h, h1, h2, h3]
  · intro h
    simp [readyFromPayload, h]

/-- C10 witness: a payload whose `seat` field is a number and whose `ready`
field is a string. -/
theorem c10_payload_defaults_witness :
    let payload : Json := .obj [("seat", .num 3), ("ready", .str "yes")]
    ((payload.get "seat").bind Json.asStr = none →
      seatFromPayload payload = .ok .Spectator) ∧
    (∀ s : String, (payload.get "seat").bind Json.asStr = some s →
      ¬ s = "black" → ¬ s = "white" → ¬ s = "spectator" →
      seatFromPayload payload = .error "bad_request") ∧
    ((payload.get "ready").bind Json.asBool = none →
      readyFromPayload payload = false) :=
  c10_payload_defaults (.obj [("seat", .num 3), ("ready", .str "yes")])

end FIAR
